import Mathlib

/-!
Verification development for the robin oligonucleotide-design repository.

The Python sources are shallowly embedded: DNA sequences are lists of
characters, Python floats are modelled as exact rationals, the standard
random source and the external primer3 thermodynamic oracle are passed in
as explicit function parameters, and Python exceptions are modelled with
Option / Except.  Namespaces mirror the source files:

* Core   - src/backend/core/  (repository.py, thermodynamics.py, validator.py)
* Webapp - src/webapp/app.py  (dataclasses, calculators, designer)
* Server - src/backend/app.py (OligoDesigner, optimization engine, scorer)

Diagnostic message strings and wall-clock timing fields are elided from the
embedded records: no verified property depends on them.
-/

attribute [local semireducible] Rat.mul Rat.add Rat.sub Rat.inv Rat.ofScientific

/-- A DNA sequence, as the list of characters of the Python string. -/
abbrev DNA := List Char

/-- Characters of a string literal, used to transcribe the Python literals. -/
def seqChars (s : String) : DNA := s.data

/-- Number of G characters plus number of C characters
    (sequence.count applied twice, as in all the Python gc functions). -/
def gcCount (s : DNA) : Nat := s.count 'G' + s.count 'C'

/-- Shared body of the gc-content helpers that appear verbatim in
    repository.py, thermodynamics.py, webapp/app.py and backend/app.py:
    (gc_count / len(sequence)) * 100 if sequence else 0. -/
def gcPercent (s : DNA) : ℚ :=
  if s = [] then 0 else ((gcCount s : ℚ) / (s.length : ℚ)) * 100

/-- Watson-Crick complement table; None models the KeyError a Python dict
    lookup raises on a non-ATGC character (dict.get returns None where the
    code uses .get). -/
def complementChar (c : Char) : Option Char :=
  if c = 'A' then some 'T'
  else if c = 'T' then some 'A'
  else if c = 'G' then some 'C'
  else if c = 'C' then some 'G'
  else none

/-- complements.get(base1) == base2, from _are_complementary in
    thermodynamics.py and webapp/app.py. -/
def areComplementary (b1 b2 : Char) : Bool :=
  complementChar b1 = some b2

/-- OligoDesigner.reverse_complement from backend/app.py:
    join of complement[base] for base in reversed(sequence); None models the
    KeyError raised on a non-ATGC character. -/
def reverseComplement (s : DNA) : Option DNA :=
  s.reverse.mapM complementChar

/-- Python s[-n:]: the final n characters (the whole list when shorter). -/
def lastN (n : Nat) (s : DNA) : DNA := s.drop (s.length - n)

/-- Python round() on a rational value: round half to even. -/
def pyRound (q : ℚ) : ℤ :=
  let f : ℤ := ⌊q⌋
  let r : ℚ := q - f
  if r < 1/2 then f
  else if 1/2 < r then f + 1
  else if Even f then f else f + 1

/-- Python round(x, 2), on the rational model of the float. -/
def round2 (q : ℚ) : ℚ := (pyRound (100 * q) : ℚ) / 100

/-- Python round(x, 1), on the rational model of the float. -/
def round1 (q : ℚ) : ℚ := (pyRound (10 * q) : ℚ) / 10

namespace Core

/-- OrthogonalRepository.sequences_by_length from
    src/backend/core/repository.py (dict.get with default []). -/
def sequencesByLength (length : ℤ) : List DNA :=
  if length = 10 then
    [seqChars "ATCGATCGAT", seqChars "GCTAGCTAGT", seqChars "TACGTACGTA",
     seqChars "CGATCGATCG", seqChars "AGTCAGTCAG", seqChars "TCGATCGATC",
     seqChars "GTACGTACGT", seqChars "CATGCATGCA"]
  else if length = 15 then
    [seqChars "ATCGATCGATCGATC", seqChars "GCTAGCTAGCTAGCT",
     seqChars "TACGTACGTACGTAC", seqChars "CGATCGATCGATCGA",
     seqChars "AGTCAGTCAGTCAGT", seqChars "TCGATCGATCGATCG"]
  else if length = 20 then
    [seqChars "ATCGATCGATCGATCGATCG", seqChars "GCTAGCTAGCTAGCTAGCTA",
     seqChars "TACGTACGTACGTACGTACG", seqChars "CGATCGATCGATCGATCGAT",
     seqChars "AGTCAGTCAGTCAGTCAGTC", seqChars "TCGATCGATCGATCGATCGA"]
  else if length = 25 then
    [seqChars "ATCGATCGATCGATCGATCGATCG", seqChars "GCTAGCTAGCTAGCTAGCTAGCTA",
     seqChars "TACGTACGTACGTACGTACGTACG", seqChars "CGATCGATCGATCGATCGATCGAT"]
  else []

/-- OrthogonalRepository._generate_sequence from repository.py.
    padFn stands for the stream of random.choice([A, T]) draws of the
    padding loop (the loop appends exactly length - len(bases) characters),
    and shuffleFn stands for random.shuffle. -/
def generateSequence (shuffleFn : List Char → List Char) (padFn : Nat → Char)
    (length : ℤ) (gcTarget : ℚ) : DNA :=
  let gcC : ℤ := pyRound (gcTarget / 100 * (length : ℚ))
  let atC : ℤ := length - gcC
  let bases : List Char :=
    List.replicate (Int.fdiv gcC 2).toNat 'G' ++
    List.replicate (gcC - Int.fdiv gcC 2).toNat 'C' ++
    List.replicate (Int.fdiv atC 2).toNat 'A' ++
    List.replicate (atC - Int.fdiv atC 2).toNat 'T'
  let padded := bases ++ (List.range (length.toNat - bases.length)).map padFn
  shuffleFn (padded.take length.toNat)

/-- OrthogonalRepository.get_orthogonal_sequence from repository.py.
    choice indexes the uniform random.choice among the suitable candidates. -/
def getOrthogonalSequence (choice : Nat) (shuffleFn : List Char → List Char)
    (padFn : Nat → Char) (length : ℤ) (gcTarget : ℚ)
    (excludeSequences : List DNA) : DNA :=
  let candidates := sequencesByLength length
  let suitable := candidates.filter
    (fun s => s ∉ excludeSequences ∧ |gcPercent s - gcTarget| ≤ 15)
  if suitable.isEmpty then generateSequence shuffleFn padFn length gcTarget
  else suitable.getD (choice % suitable.length) []

end Core

/-- GlobalParams dataclass (identical in core/models.py and webapp/app.py). -/
structure GlobalParams where
  reactionTemp : ℚ := 37
  saltConc : ℚ := 50
  mgConc : ℚ := 2
  oligoConc : ℚ := 250
deriving DecidableEq, Repr

/-- ValidationCheck dataclass (core/models.py and webapp/app.py); the
    diagnostic message field is elided. -/
structure ValidationCheck where
  passCheck : Bool
  value : Option ℚ := none
  deltaG : Option ℚ := none
  threshold : Option ℚ := none
  targetRange : Option (ℚ × ℚ) := none
deriving DecidableEq, Repr

/-- Membership test c in the Python string AT, used by the terminal
    corrections of both melting-temperature calculators. -/
def isATChar (c : Char) : Bool := c = 'A' ∨ c = 'T'

/-- The shared 16-entry nearest-neighbor (dH, dS) table nn_params of
    thermodynamics.py and webapp/app.py; None models a dinucleotide absent
    from the dict (the loops skip it). -/
def nnParams (p : Char × Char) : Option (ℚ × ℚ) :=
  match p with
  | ('A', 'A') => some (-7.9, -22.2)
  | ('A', 'T') => some (-7.2, -20.4)
  | ('A', 'G') => some (-7.8, -21.0)
  | ('A', 'C') => some (-8.4, -22.4)
  | ('T', 'A') => some (-7.2, -21.3)
  | ('T', 'T') => some (-7.9, -22.2)
  | ('T', 'G') => some (-8.5, -22.7)
  | ('T', 'C') => some (-8.2, -22.2)
  | ('G', 'A') => some (-8.2, -22.2)
  | ('G', 'T') => some (-8.4, -22.4)
  | ('G', 'G') => some (-8.0, -19.9)
  | ('G', 'C') => some (-9.8, -24.4)
  | ('C', 'A') => some (-8.5, -22.7)
  | ('C', 'T') => some (-7.8, -21.0)
  | ('C', 'G') => some (-10.6, -27.2)
  | ('C', 'C') => some (-8.0, -19.9)
  | _ => none

/-- The nearest-neighbor summation loop shared by both calculators:
    for i in range(len - 1), add the (dH, dS) of sequence[i:i+2] when the
    dinucleotide is in the table. -/
def nnSum (s : DNA) : ℚ × ℚ :=
  (s.zip s.tail).foldl
    (fun acc p =>
      match nnParams p with
      | some hs => (acc.1 + hs.1, acc.2 + hs.2)
      | none => acc) (0, 0)

namespace Core

/-- The (dH, dS) accumulation of
    ThermodynamicCalculator.calculate_melting_temp in
    src/backend/core/thermodynamics.py: nearest-neighbor sum, then
    dH += 2.3, dS += 4.1 for a first character in AT and again for a last
    character in AT; nothing is added for any other terminal character. -/
def meltDHDS (s : DNA) : ℚ × ℚ :=
  let base := nnSum s
  let afterHead :=
    if isATChar (s.headD ' ') then (base.1 + 2.3, base.2 + 4.1) else base
  if isATChar (s.getLastD ' ') then (afterHead.1 + 2.3, afterHead.2 + 4.1)
  else afterHead

/-- ThermodynamicCalculator.calculate_melting_temp from
    src/backend/core/thermodynamics.py.  ln stands for math.log (the only
    transcendental operation; it is supplied as a parameter of the model).
    R = 1.987 cal per mol K. -/
def calculateMeltingTemp (ln : ℚ → ℚ) (params : GlobalParams) (s : DNA) : ℚ :=
  if s.length < 2 then 0
  else
    let hs := meltDHDS s
    let dS := hs.2 + 0.368 * (s.length : ℚ) * ln (params.saltConc / 1000)
    if dS ≠ 0 then
      max 0 (hs.1 * 1000 / (dS + 1.987 * ln (params.oligoConc / 4000000000))
              - 273.15)
    else 0

/-- The overlap/match counting of one register offset inside
    ThermodynamicCalculator.calculate_dimer_dg: for i in range(len(seq1)),
    j = i - offset; when 0 <= j < len(seq2) the overlap grows and a
    Watson-Crick complementary pair grows the match count. -/
def dimerPairCounts (s1 s2 : DNA) (offset : ℤ) : Nat × Nat :=
  (List.range s1.length).foldl
    (fun acc (i : ℕ) =>
      let j : ℤ := (i : ℤ) - offset
      if 0 ≤ j ∧ j < (s2.length : ℤ) then
        (acc.1 + 1,
         if areComplementary (s1.getD i ' ') (s2.getD j.toNat ' ') then
           acc.2 + 1
         else acc.2)
      else acc) (0, 0)

/-- ThermodynamicCalculator.calculate_dimer_dg from
    src/backend/core/thermodynamics.py: scan offsets in
    range(-len(seq2), len(seq1)); alignments with overlap >= 3 and
    matches >= 3 contribute dg = -1.2 * matches + 2.0 plus the temperature
    correction (temp - 37) * 0.015; keep the most negative, starting at 0. -/
def calculateDimerDg (s1 s2 : DNA) (temp : ℚ) : ℚ :=
  let offsets : List ℤ :=
    (List.range (s2.length + s1.length)).map (fun k => (k : ℤ) - s2.length)
  offsets.foldl
    (fun best off =>
      let c := dimerPairCounts s1 s2 off
      if 3 ≤ c.1 ∧ 3 ≤ c.2 then
        let dg := -1.2 * (c.2 : ℚ) + 2.0 + (temp - 37) * 0.015
        if dg < best then dg else best
      else best) 0

/-- The worst-ΔG accumulation loop of
    SequenceValidator.validate_cross_dimerization in
    src/backend/core/validator.py: sequences equal to the one under test
    are skipped, every other one is compared at the default 37 C. -/
def crossWorstDg (sequence : DNA) (others : List DNA) : ℚ :=
  others.foldl
    (fun w o =>
      if o ≠ sequence then
        let dg := calculateDimerDg sequence o 37
        if dg < w then dg else w
      else w) 0

/-- SequenceValidator.validate_cross_dimerization from
    src/backend/core/validator.py (message elided): pass iff the worst
    recorded ΔG is >= max_dg. -/
def validateCrossDimerization (sequence : DNA) (others : List DNA)
    (maxDg : ℚ := -6) : ValidationCheck :=
  let worst := crossWorstDg sequence others
  { passCheck := decide (maxDg ≤ worst)
    deltaG := some worst
    threshold := some maxDg }

end Core

namespace Server

/-- OligoDesigner.gc_content from src/backend/app.py (same formula as the
    other gc helpers). -/
def gcContent (s : DNA) : ℚ := gcPercent s

/-- OligoDesigner.melting_temp from src/backend/app.py: the base-count rule
    2(A+T) + 4(G+C) below 14 nt, else 64.9 + 41 (gc - 16.4) / 100. -/
def meltingTemp (s : DNA) : ℚ :=
  if s.length < 14 then
    2 * ((s.count 'A' : ℚ) + (s.count 'T' : ℚ)) +
      4 * ((s.count 'G' : ℚ) + (s.count 'C' : ℚ))
  else 64.9 + 41 * (gcContent s - 16.4) / 100

/-- The settings dict consumed by validate_sequence,
    generate_optimized_strand_sets and calculate_strand_set_score.  The keys
    read with settings[k] are required (a run that lacks one raises before
    producing any result); the keys read with settings.get carry the
    defaults recorded here.  All are modelled as present fields. -/
structure Settings where
  gcMin : ℚ
  gcMax : ℚ
  tmMin : ℚ
  tmMax : ℚ
  hairpinDg : ℚ
  selfDimerDg : ℚ
  threePrimeHairpinDg : ℚ := -2
  threePrimeSelfDimerDg : ℚ := -5
  crossDimerDg : ℚ := -8
  temp : ℚ := 37
deriving DecidableEq, Repr

/-- The external primer3 thermodynamic oracle.  Each function returns the
    raw .dg value in cal per mol (the callers divide by 1000); none models a
    raised exception, which every call site catches. -/
structure Primer3 where
  hairpin : DNA → ℚ → Option ℚ
  homodimer : DNA → ℚ → Option ℚ
  heterodimer : DNA → DNA → ℚ → Option ℚ

/-- The results dict built by OligoDesigner.validate_sequence: per check the
    recorded value and valid flag, plus overall_valid. -/
structure SeqValidation where
  gcValue : ℚ
  gcValid : Bool
  tmValue : ℚ
  tmValid : Bool
  hairpinValue : ℚ
  hairpinValid : Bool
  selfDimerValue : ℚ
  selfDimerValid : Bool
  threePrimeHairpinValue : ℚ
  threePrimeHairpinValid : Bool
  threePrimeSelfDimerValue : ℚ
  threePrimeSelfDimerValid : Bool
  overallValid : Bool
deriving DecidableEq, Repr

/-- OligoDesigner.validate_sequence from src/backend/app.py.  Each primer3
    exception handler substitutes the sentinel value of the source (-1.0,
    -3.0, 0.0, 0.0) and leaves the check valid.  Recorded values are rounded
    (round(gc,1), round(tm,1), round(dg,2)); the threshold comparisons use
    the unrounded values, as in the source. -/
def validateSequence (p3 : Primer3) (st : Settings) (s : DNA) : SeqValidation :=
  let gc := gcContent s
  let gcOk := decide (st.gcMin ≤ gc ∧ gc ≤ st.gcMax)
  let tm := meltingTemp s
  let tmOk := decide (st.tmMin ≤ tm ∧ tm ≤ st.tmMax)
  let hairpinRes : ℚ × Bool :=
    match p3.hairpin s st.temp with
    | some raw => (round2 (raw / 1000), decide (¬ raw / 1000 < st.hairpinDg))
    | none => (-1, true)
  let selfDimerRes : ℚ × Bool :=
    match p3.homodimer s st.temp with
    | some raw =>
      (round2 (raw / 1000), decide (¬ raw / 1000 < st.selfDimerDg))
    | none => (-3, true)
  let threePrimeEnd := lastN 5 s
  let tpHairpinRes : ℚ × Bool :=
    match p3.hairpin threePrimeEnd st.temp with
    | some raw =>
      (round2 (raw / 1000), decide (¬ raw / 1000 < st.threePrimeHairpinDg))
    | none => (0, true)
  let tpSelfRes : ℚ × Bool :=
    match p3.heterodimer threePrimeEnd s st.temp with
    | some raw =>
      (round2 (raw / 1000), decide (¬ raw / 1000 < st.threePrimeSelfDimerDg))
    | none => (0, true)
  { gcValue := round1 gc
    gcValid := gcOk
    tmValue := round1 tm
    tmValid := tmOk
    hairpinValue := hairpinRes.1
    hairpinValid := hairpinRes.2
    selfDimerValue := selfDimerRes.1
    selfDimerValid := selfDimerRes.2
    threePrimeHairpinValue := tpHairpinRes.1
    threePrimeHairpinValid := tpHairpinRes.2
    threePrimeSelfDimerValue := tpSelfRes.1
    threePrimeSelfDimerValid := tpSelfRes.2
    overallValid :=
      gcOk && tmOk && hairpinRes.2 && selfDimerRes.2 && tpHairpinRes.2 &&
        tpSelfRes.2 }

/-- OligoDesigner.calculate_three_prime_cross_dimer_dg from
    src/backend/app.py: heterodimer of the last 5 nucleotides of seq1
    against all of seq2; an exception yields 0.0. -/
def calculateThreePrimeCrossDimerDg (p3 : Primer3) (s1 s2 : DNA)
    (temp : ℚ) : ℚ :=
  match p3.heterodimer (lastN 5 s1) s2 temp with
  | some raw => raw / 1000
  | none => 0

/-- Python domain_name.rstrip(star): drop every trailing star character. -/
def rstripStar (s : String) : String :=
  ⟨(s.data.reverse.dropWhile (fun c => c = '*')).reverse⟩

/-- One entry of the target_strands list: a strand name and its ordered
    domain-name list. -/
structure TargetStrand where
  name : String
  domains : List String
deriving DecidableEq, Repr

/-- The required_domains set built by generate_optimized_strand_sets: the
    rstripped base name of every domain of every target strand.  The Python
    set is modelled as a deduplicated list; iteration order is immaterial
    because the random draw is keyed by generation and base name. -/
def requiredDomains (targets : List TargetStrand) : List String :=
  (((targets.map (fun t => t.domains)).flatten).map rstripStar).dedup

/-- The per-generation domain_assignments loop of
    generate_optimized_strand_sets.  draw g base stands for the
    get_random_oligo(domain_cache[base]) call of generation g (none = no
    oligo obtainable); a missing cache entry, a failed draw or an empty
    drawn string abort the generation (ok none, the loop break); a non-ATGC
    character would make reverse_complement raise, which propagates out of
    the whole request (error). -/
def buildAssignments (draw : Nat → String → Option DNA)
    (cache : String → Option ℤ) (g : Nat) :
    List String → Except String (Option (List (String × DNA)))
  | [] => .ok (some [])
  | base :: rest =>
    match cache base with
    | none => .ok none
    | some _len =>
      match draw g base with
      | none => .ok none
      | some s =>
        if s.isEmpty then .ok none
        else
          match reverseComplement s with
          | none => .error "KeyError in reverse_complement"
          | some rc =>
            (buildAssignments draw cache g rest).map
              (fun asgOpt => asgOpt.map
                (fun asg => (base, s) :: (base ++ "*", rc) :: asg))

/-- Lookup in the domain_assignments dict (keys are distinct, see
    buildAssignments). -/
def lookupAsg (asg : List (String × DNA)) (k : String) : Option DNA :=
  (asg.find? (fun p => p.1 == k)).map (fun p => p.2)

/-- The strand_seq concatenation loop: a domain name absent from the
    assignments invalidates the generation. -/
def buildSeq (asg : List (String × DNA)) : List String → Option DNA
  | [] => some []
  | d :: rest =>
    match lookupAsg asg d with
    | none => none
    | some s => (buildSeq asg rest).map (fun r => s ++ r)

/-- One strand entry of a generation (name, sequence, validation). -/
structure StrandRec where
  name : String
  sequence : DNA
  validation : SeqValidation
deriving DecidableEq, Repr

/-- The generation_strands loop: build each target strand, validate it, and
    abort the generation on a missing domain or an invalid strand. -/
def buildStrands (p3 : Primer3) (st : Settings)
    (asg : List (String × DNA)) :
    List TargetStrand → Option (List StrandRec)
  | [] => some []
  | t :: rest =>
    match buildSeq asg t.domains with
    | none => none
    | some seqv =>
      let v := validateSequence p3 st seqv
      if v.overallValid then
        (buildStrands p3 st asg rest).map
          (fun l => { name := t.name, sequence := seqv, validation := v } :: l)
      else none

/-- One cross_dimer_results entry. -/
structure CrossRec where
  strand1 : String
  strand2 : String
  dg : ℚ
deriving DecidableEq, Repr

/-- The cross-dimer double loop of generate_optimized_strand_sets: every
    ordered pair of distinct positions i, j contributes one record with the
    3-prime directional ΔG of strand i against strand j. -/
def crossDimerRecords (p3 : Primer3) (st : Settings)
    (strands : List StrandRec) : List CrossRec :=
  ((strands.enum.map (fun p1 =>
      strands.enum.filterMap (fun p2 =>
        if p1.1 = p2.1 then none
        else
          some { strand1 := p1.2.name
                 strand2 := p2.2.name
                 dg := calculateThreePrimeCrossDimerDg p3 p1.2.sequence
                         p2.2.sequence st.temp }))).flatten)

/-- The cross_dimer_valid flag: the loop clears it when any recorded dg is
    strictly below the configured threshold, so the final flag states that
    no recorded dg is below it. -/
def crossDimerValidFlag (st : Settings) (records : List CrossRec) : Bool :=
  records.all (fun r => !(decide (r.dg < st.crossDimerDg)))

/-- The thermodynamic_violations accumulation of calculate_strand_set_score
    (backend/app.py): hairpin x5, self-dimer x3, 3-prime hairpin x6, each
    when the recorded value is below its threshold. -/
def thermoPenalty (st : Settings) (strands : List StrandRec) : ℚ :=
  strands.foldl
    (fun acc s =>
      let v := s.validation
      let acc1 :=
        if v.hairpinValue < st.hairpinDg then
          acc + |v.hairpinValue - st.hairpinDg| * 5
        else acc
      let acc2 :=
        if v.selfDimerValue < st.selfDimerDg then
          acc1 + |v.selfDimerValue - st.selfDimerDg| * 3
        else acc1
      if v.threePrimeHairpinValue < st.threePrimeHairpinDg then
        acc2 + |v.threePrimeHairpinValue - st.threePrimeHairpinDg| * 6
      else acc2) 0

/-- The three_prime_imbalance accumulation: ideal 3-prime self-dimer band
    [-6, -3]; above the ceiling costs (dg + 3) x4, below the floor costs
    |dg + 6| x6. -/
def imbalancePenalty (strands : List StrandRec) : ℚ :=
  strands.foldl
    (fun acc s =>
      let dg := s.validation.threePrimeSelfDimerValue
      if dg > -3 then acc + (dg - (-3)) * 4
      else if dg < -6 then acc + |dg - (-6)| * 6
      else acc) 0

/-- The cross_dimer_risks accumulation: below the threshold costs x15,
    inside the danger zone (threshold + 2) costs x3. -/
def crossPenalty (st : Settings) (records : List CrossRec) : ℚ :=
  records.foldl
    (fun acc r =>
      if r.dg < st.crossDimerDg then
        acc + |r.dg - st.crossDimerDg| * 15
      else if r.dg < st.crossDimerDg + 2 then
        acc + |r.dg - (st.crossDimerDg + 2)| * 3
      else acc) 0

/-- The score dict returned by calculate_strand_set_score: total =
    round(max(0, 100 - total_penalty), 2) and the rounded per-category
    subtotals (penalty_details messages elided). -/
structure Score where
  total : ℚ
  penThermo : ℚ
  penImbalance : ℚ
  penCross : ℚ
  penTotal : ℚ
deriving DecidableEq, Repr

/-- calculate_strand_set_score from src/backend/app.py. -/
def calculateStrandSetScore (strands : List StrandRec)
    (records : List CrossRec) (st : Settings) : Score :=
  let pT := thermoPenalty st strands
  let pI := imbalancePenalty strands
  let pC := crossPenalty st records
  let totalPenalty := pT + pI + pC
  let finalScore := max 0 (100 - totalPenalty)
  { total := round2 finalScore
    penThermo := round2 pT
    penImbalance := round2 pI
    penCross := round2 pC
    penTotal := round2 totalPenalty }

/-- One retained valid_strand_sets entry (the duplicated score_details field
    is elided; it aliases score). -/
structure Trial where
  generation : Nat
  strands : List StrandRec
  crossDimerResults : List CrossRec
  score : Score
deriving DecidableEq, Repr

/-- The body of one iteration of the generation loop of
    generate_optimized_strand_sets: ok none is a discarded trial, ok (some
    t) a retained one, error a propagating exception. -/
def trialFor (draw : Nat → String → Option DNA) (p3 : Primer3)
    (st : Settings) (cache : String → Option ℤ)
    (targets : List TargetStrand) (g : Nat) : Except String (Option Trial) :=
  (buildAssignments draw cache g (requiredDomains targets)).map
    (fun asgOpt =>
      match asgOpt with
      | none => none
      | some asg =>
        match buildStrands p3 st asg targets with
        | none => none
        | some strands =>
          let records := crossDimerRecords p3 st strands
          if crossDimerValidFlag st records then
            some { generation := g + 1
                   strands := strands
                   crossDimerResults := records
                   score := calculateStrandSetScore strands records st }
          else none)

/-- Stable insertion used to model
    valid_strand_sets.sort(key = score total, reverse = True): the inserted
    earlier element goes before every element whose total is <= its own, so
    equal totals keep their original (generation) order, as Python's stable
    sort does. -/
def insertDesc (x : Trial) : List Trial → List Trial
  | [] => [x]
  | y :: ys =>
    if y.score.total ≤ x.score.total then x :: y :: ys
    else y :: insertDesc x ys

/-- The stable descending sort by score total. -/
def sortDesc (l : List Trial) : List Trial := l.foldr insertDesc []

/-- The jsonified outcome of generate_optimized_strand_sets (message string
    elided): the retained valid sets in generation order, the sorted top 10
    and total_valid. -/
structure EngineOut where
  validSets : List Trial
  topSets : List Trial
  totalValid : Nat
deriving DecidableEq, Repr

/-- generate_optimized_strand_sets from src/backend/app.py, lines 822-949:
    no selected strand is the early error reply; otherwise run
    num_generations independent trials, keep the valid ones in order, sort
    stably by descending score and return the first 10. -/
def generateOptimizedStrandSets (draw : Nat → String → Option DNA)
    (p3 : Primer3) (st : Settings) (cache : String → Option ℤ)
    (targets : List TargetStrand) (numGenerations : Nat) :
    Except String EngineOut :=
  if targets.isEmpty then .error "No strands selected"
  else
    ((List.range numGenerations).mapM (trialFor draw p3 st cache targets)).map
      (fun opts =>
        let valid := opts.reduceOption
        { validSets := valid
          topSets := (sortDesc valid).take 10
          totalValid := valid.length })

end Server

namespace Webapp

/-- OrthogonalRepository._create_random_sequence from src/webapp/app.py is
    verbatim the backend _generate_sequence, so the same embedding is
    reused. -/
def createRandomSequence (shuffleFn : List Char → List Char)
    (padFn : Nat → Char) (length : ℤ) (gcTarget : ℚ) : DNA :=
  Core.generateSequence shuffleFn padFn length gcTarget

/-- OrthogonalRepository._generate_sequence from src/webapp/app.py: up to
    1000 attempts to create a random sequence outside the exclusion list,
    then one final unconditional attempt.  create i is attempt i (each
    attempt consumes fresh randomness). -/
def generateSequence (create : Nat → DNA) (excludeSequences : List DNA) : DNA :=
  match (List.range 1000).find? (fun i => decide (create i ∉ excludeSequences)) with
  | some i => create i
  | none => create 1000

/-- OrthogonalRepository.get_orthogonal_sequence from src/webapp/app.py:
    identical pool to the backend (reused), 10-point GC tolerance, and the
    retrying generator as fallback. -/
def getOrthogonalSequence (choice : Nat)
    (shuffleFns : Nat → List Char → List Char) (padFns : Nat → Nat → Char)
    (length : ℤ) (gcTarget : ℚ) (excludeSequences : List DNA) : DNA :=
  let candidates := Core.sequencesByLength length
  let suitable := candidates.filter
    (fun s => s ∉ excludeSequences ∧ |gcPercent s - gcTarget| ≤ 10)
  if suitable.isEmpty then
    generateSequence
      (fun i => createRandomSequence (shuffleFns i) (padFns i) length gcTarget)
      excludeSequences
  else suitable.getD (choice % suitable.length) []

/-- The (dH, dS) accumulation of
    ThermodynamicCalculator.calculate_melting_temp in src/webapp/app.py:
    nearest-neighbor sum plus terminal_at = (2.3, 4.1) for an A/T end and
    terminal_gc = (0.1, -2.8) for any other end, applied at both ends. -/
def meltDHDS (s : DNA) : ℚ × ℚ :=
  let base := nnSum s
  let afterHead :=
    if isATChar (s.headD ' ') then (base.1 + 2.3, base.2 + 4.1)
    else (base.1 + 0.1, base.2 - 2.8)
  if isATChar (s.getLastD ' ') then (afterHead.1 + 2.3, afterHead.2 + 4.1)
  else (afterHead.1 + 0.1, afterHead.2 - 2.8)

/-- ThermodynamicCalculator.calculate_melting_temp from src/webapp/app.py;
    ln models math.log, salt_correction = 0.368, R = 1.987. -/
def calculateMeltingTemp (ln : ℚ → ℚ) (params : GlobalParams) (s : DNA) : ℚ :=
  if s.length < 2 then 0
  else
    let hs := meltDHDS s
    let dS := hs.2 + 0.368 * (s.length : ℚ) * ln (params.saltConc / 1000)
    if dS ≠ 0 then
      max 0 (hs.1 * 1000 / (dS + 1.987 * ln (params.oligoConc / 4000000000))
              - 273.15)
    else 0

/-- ThermodynamicCalculator.calculate_hairpin_dg from src/webapp/app.py.
    The temp parameter of the source is unused by its body.  The inner break
    (j + min_stem > len) is modelled as a filter: the condition is monotone
    in loop_size, so stopping and filtering keep the same candidates. -/
def calculateHairpinDg (s : DNA) (_temp : ℚ) : ℚ :=
  let n := s.length
  (List.range (n - 3 - 3)).foldl
    (fun best i =>
      (((List.range' 3 (n - i - 3 + 1 - 3)).filter
          (fun ls => decide (i + 3 + ls + 3 ≤ n))).foldl
        (fun best ls =>
          let j := i + 3 + ls
          let stemLength := min 3 (n - j)
          let matchCount := ((List.range stemLength).filter
            (fun k => decide (i + k < n ∧ j + stemLength - 1 - k < n ∧
              areComplementary (s.getD (i + k) ' ')
                (s.getD (j + stemLength - 1 - k) ' ') = true))).length
          if 3 ≤ matchCount then
            let dg := -1.5 * (matchCount : ℚ) + (3.0 + 0.5 * (ls : ℚ))
            if dg < best then dg else best
          else best) best)) 0

/-- ThermodynamicCalculator.calculate_dimer_dg from src/webapp/app.py:
    offsets in range(-len2 + 3, len1 - 3 + 1), the same per-offset counting
    loop as the backend calculator (reused), acceptance at overlap >= 3 and
    matches >= 3 with dg = -1.2 matches + 0.5 overlap + 2.0 (no temperature
    term), most negative kept, starting at 0. -/
def calculateDimerDg (s1 s2 : DNA) (_temp : ℚ) : ℚ :=
  let offsets : List ℤ :=
    (List.range (s1.length + s2.length - 5)).map
      (fun k => (k : ℤ) - s2.length + 3)
  offsets.foldl
    (fun best off =>
      let c := Core.dimerPairCounts s1 s2 off
      if 3 ≤ c.1 ∧ 3 ≤ c.2 then
        let dg := -1.2 * (c.2 : ℚ) + 0.5 * (c.1 : ℚ) + 2.0
        if dg < best then dg else best
      else best) 0

/-- The Python exceptions design_strand can catch, with the message str(e)
    would produce for each. -/
inductive PyErr where
  | keyErrorName
  | keyErrorLength
  | unexpectedParam (k : String)
  | zeroDivision
deriving DecidableEq, Repr

/-- str(e) for each modelled exception. -/
def PyErr.message : PyErr → String
  | .keyErrorName => "name"
  | .keyErrorLength => "length"
  | .unexpectedParam k => "unexpected keyword argument " ++ k
  | .zeroDivision => "division by zero"

/-- ThermodynamicCalculator.calculate_3prime_stability from
    src/webapp/app.py.  The division by the window length raises
    ZeroDivisionError on an empty sequence; the error branch models it. -/
def calculate3primeStability (s : DNA) : Except PyErr ℚ :=
  let length := if s.length < 5 then s.length else 5
  if length = 0 then .error .zeroDivision
  else
    let endSeq := lastN length s
    let gcC := endSeq.count 'G' + endSeq.count 'C'
    .ok (-0.05 * (((gcC : ℚ) / (length : ℚ)) * 100) - 1)

end Webapp

namespace Webapp

/-- SequenceValidator.validate_melting_temperature from src/webapp/app.py. -/
def validateMeltingTemperature (ln : ℚ → ℚ) (s : DNA) (params : GlobalParams)
    (minOffset : ℚ := 5) (maxOffset : ℚ := 25) : ValidationCheck :=
  let tm := calculateMeltingTemp ln params s
  let targetMin := params.reactionTemp + minOffset
  let targetMax := params.reactionTemp + maxOffset
  { passCheck := decide (targetMin ≤ tm ∧ tm ≤ targetMax)
    value := some tm
    targetRange := some (targetMin, targetMax) }

/-- SequenceValidator.validate_hairpin_formation from src/webapp/app.py. -/
def validateHairpinFormation (s : DNA) (maxDg : ℚ := -3)
    (temp : ℚ := 37) : ValidationCheck :=
  let dg := calculateHairpinDg s temp
  { passCheck := decide (maxDg ≤ dg), deltaG := some dg,
    threshold := some maxDg }

/-- SequenceValidator.validate_self_dimerization from src/webapp/app.py. -/
def validateSelfDimerization (s : DNA) (maxDg : ℚ := -6)
    (temp : ℚ := 37) : ValidationCheck :=
  let dg := calculateDimerDg s s temp
  { passCheck := decide (maxDg ≤ dg), deltaG := some dg,
    threshold := some maxDg }

/-- SequenceValidator.validate_cross_dimerization from src/webapp/app.py
    (same skip-equal loop as the backend validator, with a temp
    parameter). -/
def validateCrossDimerization (s : DNA) (others : List DNA)
    (maxDg : ℚ := -6) (temp : ℚ := 37) : ValidationCheck :=
  let worst := others.foldl
    (fun w o =>
      if o ≠ s then
        let dg := calculateDimerDg s o temp
        if dg < w then dg else w
      else w) 0
  { passCheck := decide (maxDg ≤ worst), deltaG := some worst,
    threshold := some maxDg }

/-- SequenceValidator.validate_gc_content from src/webapp/app.py. -/
def validateGcContent (s : DNA) (minGc : ℚ := 40)
    (maxGc : ℚ := 60) : ValidationCheck :=
  let gc := gcPercent s
  { passCheck := decide (minGc ≤ gc ∧ gc ≤ maxGc), value := some gc,
    targetRange := some (minGc, maxGc) }

/-- SequenceValidator.validate_primer_3_end from src/webapp/app.py; the
    ZeroDivisionError of the stability helper propagates. -/
def validatePrimer3End (s : DNA) (maxDg : ℚ := -3) :
    Except PyErr ValidationCheck := do
  let dg ← calculate3primeStability s
  .ok { passCheck := decide (maxDg ≤ dg), deltaG := some dg,
        threshold := some maxDg }

/-- The inner while loop of the dinucleotide-repeat scan of
    validate_repeats: how many further copies of the dinucleotide (d1, d2)
    follow at stride 2 from position j.  Fuel bounds the loop (each pass
    advances j by 2, so length passes suffice). -/
def dinucRunCount (s : DNA) (d1 d2 : Char) : Nat → Nat → Nat
  | 0, _ => 0
  | fuel + 1, j =>
    if j + 1 < s.length ∧ s.getD j ' ' = d1 ∧ s.getD (j + 1) ' ' = d2 then
      1 + dinucRunCount s d1 d2 fuel (j + 2)
    else 0

/-- SequenceValidator.validate_repeats from src/webapp/app.py: fail on a
    homopolymer run longer than max_repeat, else on any dinucleotide
    repeated more than max_repeat // 2 times in a row (the early return
    inside the while loop fires exactly when the full count exceeds the
    bound). -/
def validateRepeats (s : DNA) (maxRepeat : Nat := 4) : ValidationCheck :=
  let homo := ['A', 'T', 'G', 'C'].any
    (fun b => decide (List.IsInfix (List.replicate (maxRepeat + 1) b) s))
  if homo then { passCheck := false }
  else
    let dinucBad := (List.range (s.length - 1)).any
      (fun i => decide (maxRepeat / 2 <
        1 + dinucRunCount s (s.getD i ' ') (s.getD (i + 1) ' ')
          s.length (i + 2)))
    if dinucBad then { passCheck := false } else { passCheck := true }

/-- ValidationResult dataclass from src/webapp/app.py. -/
structure ValidationResult where
  overallPass : Bool
  checks : List (String × ValidationCheck)
deriving DecidableEq, Repr

/-- Domain dataclass from src/webapp/app.py. -/
structure Domain where
  name : String
  length : ℤ
  fixedSequence : Option String := none
  targetGcContent : ℚ := 50
  generatedSequence : Option DNA := none
  validationPassed : Bool := false
deriving DecidableEq, Repr

/-- GeneratedStrand dataclass from src/webapp/app.py. -/
structure GeneratedStrand where
  name : String
  totalLength : Nat
  sequence : DNA
  domains : List Domain
deriving DecidableEq, Repr

/-- DesignResult dataclass from src/webapp/app.py (timing fields elided). -/
structure DesignResult where
  success : Bool
  strand : Option GeneratedStrand := none
  validation : Option ValidationResult := none
  errorMessage : String := ""
deriving DecidableEq, Repr

/-- One entry of the domains request list: a dict whose name and length
    keys may be missing (domain_data[k] raises KeyError then) and whose
    fixed_sequence / target_gc_content are read with .get. -/
structure RawDomain where
  name : Option String := none
  length : Option ℤ := none
  fixedSequence : Option String := none
  targetGcContent : Option ℚ := none
deriving DecidableEq, Repr

/-- The validation_config dict of _validate_strand, with the .get defaults
    of the source. -/
structure Config where
  tmMinOffset : ℚ := 5
  tmMaxOffset : ℚ := 25
  hairpinMaxDg : ℚ := -3
  selfDimerMaxDg : ℚ := -6
  crossDimerMaxDg : ℚ := -6
  gcMin : ℚ := 40
  gcMax : ℚ := 60
  primer3EndMaxDg : ℚ := -3
deriving DecidableEq, Repr

/-- Dict lookup in the global_params request dict. -/
def lookupNum (raw : List (String × ℚ)) (k : String) : Option ℚ :=
  (raw.find? (fun p => p.1 == k)).map (fun p => p.2)

/-- GlobalParams(**global_params): an unknown key raises TypeError, missing
    keys take the dataclass defaults. -/
def parseGlobalParams (raw : List (String × ℚ)) : Except PyErr GlobalParams :=
  match raw.find? (fun p => !(p.1 == "reaction_temp" || p.1 == "salt_conc" ||
      p.1 == "mg_conc" || p.1 == "oligo_conc")) with
  | some p => .error (.unexpectedParam p.1)
  | none => .ok
      { reactionTemp := (lookupNum raw "reaction_temp").getD 37
        saltConc := (lookupNum raw "salt_conc").getD 50
        mgConc := (lookupNum raw "mg_conc").getD 2
        oligoConc := (lookupNum raw "oligo_conc").getD 250 }

/-- The Domain(...) construction of design_strand: domain_data[name] and
    domain_data[length] raise KeyError when missing, target_gc_content
    defaults to 50.0. -/
def parseDomain (rd : RawDomain) : Except PyErr Domain :=
  match rd.name with
  | none => .error .keyErrorName
  | some n =>
    match rd.length with
    | none => .error .keyErrorLength
    | some l =>
      .ok { name := n, length := l, fixedSequence := rd.fixedSequence,
            targetGcContent := rd.targetGcContent.getD 50 }

/-- The sequence-resolution loop of design_strand: a truthy fixed_sequence
    is upper-cased and used verbatim, anything else (absent or empty) is
    drawn from the repository with the already-resolved sequences as the
    exclusion list; all_sequences grows as the loop walks the domains. -/
def resolveDomains (repo : ℤ → ℚ → List DNA → DNA) :
    List Domain → List DNA → List Domain
  | [], _ => []
  | d :: rest, acc =>
    let gen :=
      match d.fixedSequence with
      | some fs =>
        if fs.isEmpty then repo d.length d.targetGcContent acc
        else fs.data.map Char.toUpper
      | none => repo d.length d.targetGcContent acc
    { d with generatedSequence := some gen } ::
      resolveDomains repo rest (acc ++ [gen])

/-- _validate_strand from src/webapp/app.py: the six checks in source
    order; overall_pass is their conjunction. -/
def validateStrand (ln : ℚ → ℚ) (s : DNA) (allSequences : List DNA)
    (params : GlobalParams) (config : Config) :
    Except PyErr ValidationResult := do
  let mt := validateMeltingTemperature ln s params config.tmMinOffset
    config.tmMaxOffset
  let hp := validateHairpinFormation s config.hairpinMaxDg
  let sd := validateSelfDimerization s config.selfDimerMaxDg
  let cd := validateCrossDimerization s
    (allSequences.filter (fun q => q ≠ s)) config.crossDimerMaxDg
  let gc := validateGcContent s config.gcMin config.gcMax
  let p3e ← validatePrimer3End s config.primer3EndMaxDg
  let checks := [("melting_temperature", mt), ("hairpin_formation", hp),
    ("self_dimerization", sd), ("cross_dimerization", cd),
    ("gc_content", gc), ("primer_3_end", p3e)]
  .ok { overallPass := checks.all (fun c => c.2.passCheck), checks := checks }

/-- _validate_domain from src/webapp/app.py: gc content, repeats and
    hairpin at their defaults. -/
def validateDomain (s : DNA) : List (String × ValidationCheck) :=
  [("gc_content", validateGcContent s),
   ("repeats", validateRepeats s),
   ("hairpin", validateHairpinFormation s)]

/-- The body of the try block of design_strand: parse, resolve,
    concatenate, validate strand and domains, assemble the result. -/
def designStrandCore (ln : ℚ → ℚ) (repo : ℤ → ℚ → List DNA → DNA)
    (strandName : String) (rawDomains : List RawDomain)
    (rawParams : List (String × ℚ)) (config : Config) :
    Except PyErr (GeneratedStrand × ValidationResult) := do
  let params ← parseGlobalParams rawParams
  let doms ← rawDomains.mapM parseDomain
  let objs := resolveDomains repo doms []
  let allSequences := objs.map (fun d => d.generatedSequence.getD [])
  let finalSequence := allSequences.flatten
  let vr ← validateStrand ln finalSequence allSequences params config
  let objs2 := objs.map (fun d =>
    let domOk := (validateDomain (d.generatedSequence.getD [])).all
      (fun c => c.2.passCheck)
    { d with validationPassed := domOk })
  .ok ({ name := strandName, totalLength := finalSequence.length,
         sequence := finalSequence, domains := objs2 }, vr)

/-- OligonucleotideDesigner.design_strand from src/webapp/app.py: the
    try/except wrapper around the core, returning a failed DesignResult
    carrying str(e) when any step raises. -/
def designStrand (ln : ℚ → ℚ) (repo : ℤ → ℚ → List DNA → DNA)
    (strandName : String) (rawDomains : List RawDomain)
    (rawParams : List (String × ℚ)) (config : Config) : DesignResult :=
  match designStrandCore ln repo strandName rawDomains rawParams config with
  | .ok (st, vr) =>
    { success := true, strand := some st, validation := some vr }
  | .error e =>
    { success := false, errorMessage := e.message }

end Webapp

namespace Core

/-- ThermodynamicCalculator.calculate_gc_content from
    src/backend/core/thermodynamics.py (the shared formula). -/
def calculateGcContent (s : DNA) : ℚ := gcPercent s

end Core

/-- The terminal correction constants of the webapp calculator: terminal_at
    for an A/T end, terminal_gc for any other end. -/
def terminalCorrectionWebapp (c : Char) : ℚ × ℚ :=
  if isATChar c then (2.3, 4.1) else (0.1, -2.8)

/-- The effective terminal correction of the backend calculator: the A/T
    constant, and nothing (zero) for any other end. -/
def terminalCorrectionCore (c : Char) : ℚ × ℚ :=
  if isATChar c then (2.3, 4.1) else (0, 0)

/-- The ranking order claimed for the returned list: strictly higher score
    first, and equal scores ordered by increasing generation index. -/
def rankedBefore (a b : Server.Trial) : Prop :=
  b.score.total < a.score.total ∨
    (a.score.total = b.score.total ∧ a.generation < b.generation)

/-- A rational stand-in for math.log agreeing with the natural logarithm to
    within 0.0001 at the two arguments reached by the default parameters:
    ln(50/1000) = -2.99573... and ln(250/4e9) = -16.58809... . -/
def lnDemo : ℚ → ℚ := fun q =>
  if q = 1/20 then -29957/10000
  else if q = 1/16000000 then -165881/10000
  else 0

/-- 9 G followed by 11 A: GC content 45 percent. -/
def seqLowGc : DNA := seqChars "GGGGGGGGGAAAAAAAAAAA"

/-- GA alternating, 20 nt: GC content 50 percent. -/
def seqHighGc : DNA := seqChars "GAGAGAGAGAGAGAGAGAGA"

/-- Concrete oracle: every draw yields a 10-A oligo. -/
def demoDraw : Nat → String → Option DNA := fun _ _ => some (seqChars "AAAAAAAAAA")

/-- Concrete primer3 stand-in: every structure query reports dg = 0. -/
def demoP3 : Server.Primer3 :=
  { hairpin := fun _ _ => some 0
    homodimer := fun _ _ => some 0
    heterodimer := fun _ _ _ => some 0 }

/-- Concrete wide-open validation settings. -/
def demoSettings : Server.Settings :=
  { gcMin := 0, gcMax := 100, tmMin := 0, tmMax := 100
    hairpinDg := -2, selfDimerDg := -5 }

/-- Concrete domain cache holding one domain x of length 10. -/
def demoCache : String → Option ℤ := fun n => if n = "x" then some 10 else none

/-- One target strand made of the single domain x. -/
def demoTargets : List Server.TargetStrand := [{ name := "s1", domains := ["x"] }]

/-- A one-generation engine run over the demo scenario. -/
def demoRun : Except String Server.EngineOut :=
  Server.generateOptimizedStrandSets demoDraw demoP3 demoSettings demoCache
    demoTargets 1

/-- Nine target strands sharing the domain x. -/
def demo9Targets : List Server.TargetStrand :=
  (List.range 9).map (fun i => { name := toString i, domains := ["x"] })

/-- A one-generation engine run over nine strands. -/
def demo9Run : Except String Server.EngineOut :=
  Server.generateOptimizedStrandSets demoDraw demoP3 demoSettings demoCache
    demo9Targets 1

/-- Repository oracle for runs where the repository is never consulted. -/
def unusedRepo : ℤ → ℚ → List DNA → DNA := fun _ _ _ => []

/-- The webapp repository with the first random choice and fixed
    randomness for the synthesis fallback. -/
def markerRepo : ℤ → ℚ → List DNA → DNA :=
  fun n gc ex =>
    Webapp.getOrthogonalSequence 0 (fun _ => id) (fun _ _ => 'A') n gc ex

/-- Repository oracle that honours requested lengths exactly. -/
def lengthRepo : ℤ → ℚ → List DNA → DNA :=
  fun n _ _ => List.replicate n.toNat 'A'

/-- C6 (code bug): for every random choice, get_orthogonal_sequence called
    with length 25, gc_target 50 and no exclusions returns a sequence of
    length 24, not 25: all four pool entries stored under the key 25 in
    sequences_by_length are 24 characters long, they all pass the GC filter,
    and the pool path returns one of them unchanged. -/
theorem getOrthogonalSequence_length25_returns24 (choice : Nat)
    (shuffleFn : List Char → List Char) (padFn : Nat → Char) :
    (Core.getOrthogonalSequence choice shuffleFn padFn 25 50 []).length = 24 := by
  have h4 : choice % 4 = 0 ∨ choice % 4 = 1 ∨ choice % 4 = 2 ∨ choice % 4 = 3 := by
    omega
  simp only [Core.getOrthogonalSequence]
  have hfil : ((Core.sequencesByLength 25).filter
      (fun s => decide (s ∉ ([] : List DNA) ∧ |gcPercent s - 50| ≤ 15))) =
      Core.sequencesByLength 25 := by decide
  rw [hfil]
  have hne : (Core.sequencesByLength 25).isEmpty = false := by decide
  rw [hne]
  have hlen : (Core.sequencesByLength 25).length = 4 := by decide
  simp only [Bool.false_eq_true, if_false, hlen]
  rcases h4 with h | h | h | h <;> rw [h] <;> decide

/-- C10: when every entry of the comparison list equals the sequence under
    test, the worst-ΔG loop of validate_cross_dimerization skips them all,
    so the check reports ΔG = 0.0 and passes against any non-positive
    threshold (every configured threshold is negative, default -6.0). -/
theorem validateCrossDimerization_vacuous (sequence : DNA) (others : List DNA)
    (maxDg : ℚ) (hall : ∀ o ∈ others, o = sequence) (hneg : maxDg ≤ 0) :
    (Core.validateCrossDimerization sequence others maxDg).passCheck = true ∧
    (Core.validateCrossDimerization sequence others maxDg).deltaG = some 0 := by
  have hworst : Core.crossWorstDg sequence others = 0 := by
    unfold Core.crossWorstDg
    suffices h : ∀ (l : List DNA) (w : ℚ), (∀ o ∈ l, o = sequence) →
        l.foldl (fun w o =>
          if o ≠ sequence then
            let dg := Core.calculateDimerDg sequence o 37
            if dg < w then dg else w
          else w) w = w by
      exact h others 0 hall
    intro l
    induction l with
    | nil => intro w _; rfl
    | cons o rest ih =>
      intro w hl
      have ho : o = sequence := hl o (by simp)
      simp only [List.foldl_cons, ho, ne_eq, not_true_eq_false, if_false]
      exact ih w (fun x hx => hl x (by simp [hx]))
  refine ⟨?_, ?_⟩
  · simp only [Core.validateCrossDimerization, hworst, decide_eq_true_eq]
    exact hneg
  · simp only [Core.validateCrossDimerization, hworst]

/-- Witness for C10 at a concrete input: a comparison list holding two
    copies of the probe itself passes with reported ΔG 0. -/
theorem validateCrossDimerization_vacuous_witness :
    (Core.validateCrossDimerization (seqChars "ATGC")
        [seqChars "ATGC", seqChars "ATGC"] (-6)).passCheck = true ∧
    (Core.validateCrossDimerization (seqChars "ATGC")
        [seqChars "ATGC", seqChars "ATGC"] (-6)).deltaG = some 0 :=
  validateCrossDimerization_vacuous _ _ _ (by decide) (by norm_num)

/-- Every strand kept by the generation-strands loop carries a validation
    with overall_valid = True: an invalid strand aborts the generation. -/
lemma buildStrands_valid {p3 : Server.Primer3} {st : Server.Settings}
    {asg : List (String × DNA)} :
    ∀ {targets : List Server.TargetStrand} {strands : List Server.StrandRec},
      Server.buildStrands p3 st asg targets = some strands →
      ∀ s ∈ strands, s.validation.overallValid = true := by
  intro targets
  induction targets with
  | nil =>
    intro strands h s hs
    simp only [Server.buildStrands, Option.some.injEq] at h
    subst h
    simp at hs
  | cons t rest ih =>
    intro strands h s hs
    simp only [Server.buildStrands] at h
    cases hseq : Server.buildSeq asg t.domains with
    | none => rw [hseq] at h; simp at h
    | some sq =>
      rw [hseq] at h
      dsimp only at h
      by_cases hv : (Server.validateSequence p3 st sq).overallValid = true
      · rw [if_pos hv] at h
        rcases Option.map_eq_some'.mp h with ⟨l, hl, rfl⟩
        rcases List.mem_cons.mp hs with rfl | hmem
        · exact hv
        · exact ih hl s hmem
      · rw [if_neg hv] at h
        simp at h

/-- A true cross_dimer_valid flag says no recorded pair ΔG is below the
    threshold. -/
lemma crossFlag_all {st : Server.Settings} {records : List Server.CrossRec}
    (h : Server.crossDimerValidFlag st records = true) :
    ∀ r ∈ records, ¬ r.dg < st.crossDimerDg := by
  intro r hr
  have hx := List.all_eq_true.mp h r hr
  simpa using hx

/-- Inversion of one retained generation: its trial records generation g+1,
    only valid strands, only above-threshold cross-dimer records, and the
    score computed from exactly its recorded strands and pairs. -/
lemma trialFor_ok_props {draw : Nat → String → Option DNA}
    {p3 : Server.Primer3} {st : Server.Settings}
    {cache : String → Option ℤ} {targets : List Server.TargetStrand}
    {g : Nat} {t : Server.Trial}
    (h : Server.trialFor draw p3 st cache targets g = .ok (some t)) :
    t.generation = g + 1 ∧
    (∀ s ∈ t.strands, s.validation.overallValid = true) ∧
    (∀ r ∈ t.crossDimerResults, ¬ r.dg < st.crossDimerDg) ∧
    t.score = Server.calculateStrandSetScore t.strands t.crossDimerResults st := by
  unfold Server.trialFor at h
  cases hba : Server.buildAssignments draw cache g (Server.requiredDomains targets) with
  | error e => rw [hba] at h; simp [Except.map] at h
  | ok asgOpt =>
    rw [hba] at h
    simp only [Except.map, Except.ok.injEq] at h
    cases asgOpt with
    | none => simp at h
    | some asg =>
      simp only at h
      cases hbs : Server.buildStrands p3 st asg targets with
      | none => rw [hbs] at h; simp at h
      | some strands =>
        rw [hbs] at h
        dsimp only at h
        by_cases hflag : Server.crossDimerValidFlag st
            (Server.crossDimerRecords p3 st strands) = true
        · rw [if_pos hflag] at h
          have ht := Option.some.inj h
          subst ht
          refine ⟨rfl, ?_, ?_, rfl⟩
          · exact buildStrands_valid hbs
          · exact crossFlag_all hflag
        · rw [if_neg hflag] at h
          simp at h

/-- Membership in the collected options of the generation loop comes from
    one retained generation. -/
lemma mapM_mem_reduceOption {f : Nat → Except String (Option Server.Trial)} :
    ∀ {l : List Nat} {opts : List (Option Server.Trial)},
      l.mapM f = .ok opts →
      ∀ t ∈ opts.reduceOption, ∃ g ∈ l, f g = .ok (some t) := by
  intro l
  induction l with
  | nil =>
    intro opts h t ht
    simp only [List.mapM_nil, pure, Except.pure, Except.ok.injEq] at h
    subst h
    simp [List.reduceOption] at ht
  | cons g rest ih =>
    intro opts h t ht
    rw [List.mapM_cons] at h
    cases hg : f g with
    | error e => rw [hg] at h; simp [bind, Except.bind] at h
    | ok o =>
      rw [hg] at h
      simp only [bind, Except.bind] at h
      cases hrest : rest.mapM f with
      | error e => rw [hrest] at h; simp [bind, Except.bind] at h
      | ok os =>
        rw [hrest] at h
        simp only [bind, Except.bind, pure, Except.pure, Except.ok.injEq] at h
        subst h
        cases o with
        | none =>
          rw [List.reduceOption_cons_of_none] at ht
          rcases ih hrest t ht with ⟨g0, hg0, hfg0⟩
          exact ⟨g0, List.mem_cons_of_mem _ hg0, hfg0⟩
        | some t0 =>
          rw [List.reduceOption_cons_of_some] at ht
          rcases List.mem_cons.mp ht with rfl | hmem
          · exact ⟨g, List.mem_cons_self _ _, hg⟩
          · rcases ih hrest t hmem with ⟨g0, hg0, hfg0⟩
            exact ⟨g0, List.mem_cons_of_mem _ hg0, hfg0⟩

/-- Inversion of a successful engine run. -/
lemma engine_ok {draw : Nat → String → Option DNA} {p3 : Server.Primer3}
    {st : Server.Settings} {cache : String → Option ℤ}
    {targets : List Server.TargetStrand} {n : Nat} {out : Server.EngineOut}
    (h : Server.generateOptimizedStrandSets draw p3 st cache targets n = .ok out) :
    ∃ opts, (List.range n).mapM (Server.trialFor draw p3 st cache targets) = .ok opts ∧
      out.validSets = opts.reduceOption ∧
      out.topSets = (Server.sortDesc opts.reduceOption).take 10 ∧
      out.totalValid = opts.reduceOption.length := by
  unfold Server.generateOptimizedStrandSets at h
  by_cases hempty : targets.isEmpty = true
  · rw [if_pos hempty] at h; simp at h
  · rw [if_neg hempty] at h
    cases hm : (List.range n).mapM (Server.trialFor draw p3 st cache targets) with
    | error e => rw [hm] at h; simp [Except.map] at h
    | ok opts =>
      rw [hm] at h
      simp only [Except.map, Except.ok.injEq] at h
      subst h
      exact ⟨opts, rfl, rfl, rfl, rfl⟩

/-- insertDesc permutes the inserted element into the list. -/
lemma insertDesc_perm (x : Server.Trial) :
    ∀ l : List Server.Trial, (Server.insertDesc x l).Perm (x :: l) := by
  intro l
  induction l with
  | nil => simp [Server.insertDesc]
  | cons y ys ih =>
    simp only [Server.insertDesc]
    by_cases hc : y.score.total ≤ x.score.total
    · rw [if_pos hc]
    · rw [if_neg hc]
      exact ((ih.cons y).trans (List.Perm.swap x y ys))

/-- The stable sort is a permutation of its input. -/
lemma sortDesc_perm : ∀ l : List Server.Trial, (Server.sortDesc l).Perm l := by
  intro l
  induction l with
  | nil => simp [Server.sortDesc]
  | cons a l ih =>
    have : Server.sortDesc (a :: l) = Server.insertDesc a (Server.sortDesc l) := rfl
    rw [this]
    exact (insertDesc_perm a (Server.sortDesc l)).trans (ih.cons a)

/-- C3: every trial in the returned top_strand_sets of the optimization
    engine has only strands whose validation is overall valid, and none of
    its recorded 3-prime cross-dimer ΔG values lies strictly below the
    configured cross-dimer threshold. -/
theorem topStrandSets_valid (draw : Nat → String → Option DNA)
    (p3 : Server.Primer3) (st : Server.Settings)
    (cache : String → Option ℤ) (targets : List Server.TargetStrand)
    (n : Nat) (out : Server.EngineOut) (t : Server.Trial)
    (hrun : Server.generateOptimizedStrandSets draw p3 st cache targets n =
      .ok out)
    (hmem : t ∈ out.topSets) :
    (∀ s ∈ t.strands, s.validation.overallValid = true) ∧
    (∀ r ∈ t.crossDimerResults, ¬ r.dg < st.crossDimerDg) := by
  rcases engine_ok hrun with ⟨opts, hopts, _, htop, _⟩
  rw [htop] at hmem
  have hmem2 : t ∈ Server.sortDesc opts.reduceOption :=
    List.mem_of_mem_take hmem
  have hmem3 : t ∈ opts.reduceOption :=
    (sortDesc_perm opts.reduceOption).mem_iff.mp hmem2
  rcases mapM_mem_reduceOption hopts t hmem3 with ⟨g, _, hg⟩
  rcases trialFor_ok_props hg with ⟨_, hvalid, hcross, _⟩
  exact ⟨hvalid, hcross⟩

/-- Witness for C3: the demo engine run returns one trial and the theorem
    applies to it. -/
theorem topStrandSets_valid_witness :
    demoRun.toOption.isSome = true ∧
    (demoRun.toOption.map (fun out => out.topSets.all
      (fun t => t.strands.all (fun s => s.validation.overallValid) &&
        t.crossDimerResults.all
          (fun r => !(decide (r.dg < demoSettings.crossDimerDg)))))) =
      some true := by
  refine ⟨by decide, ?_⟩
  cases hrun : demoRun with
  | error e =>
    have hsome : demoRun.toOption.isSome = true := by decide
    rw [hrun] at hsome
    simp [Except.toOption] at hsome
  | ok out =>
    simp only [Except.toOption, Option.map_some', Option.some.injEq]
    rw [List.all_eq_true]
    intro t ht
    have hprops := topStrandSets_valid demoDraw demoP3 demoSettings demoCache
      demoTargets 1 out t hrun ht
    rw [Bool.and_eq_true, List.all_eq_true, List.all_eq_true]
    refine ⟨fun s hs => hprops.1 s hs, fun r hr => ?_⟩
    simpa using hprops.2 r hr

/-- Inserting an element whose generation precedes everything in a ranked
    list keeps the list ranked: it goes before exactly the elements of
    lower-or-equal score. -/
lemma insertDesc_pairwise {x : Server.Trial} :
    ∀ {l : List Server.Trial}, l.Pairwise rankedBefore →
      (∀ y ∈ l, x.generation < y.generation) →
      (Server.insertDesc x l).Pairwise rankedBefore := by
  intro l
  induction l with
  | nil => intro _ _; simp [Server.insertDesc]
  | cons y ys ih =>
    intro hp hx
    simp only [Server.insertDesc]
    by_cases hc : y.score.total ≤ x.score.total
    · rw [if_pos hc]
      refine List.Pairwise.cons ?_ hp
      intro z hz
      rcases List.mem_cons.mp hz with rfl | hzys
      · rcases lt_or_eq_of_le hc with hlt | heq
        · exact Or.inl hlt
        · exact Or.inr ⟨heq.symm, hx _ (by simp)⟩
      · have hyz := (List.pairwise_cons.mp hp).1 z hzys
        have hzle : z.score.total ≤ x.score.total := by
          rcases hyz with h1 | h1
          · exact le_trans (le_of_lt h1) hc
          · exact le_trans (le_of_eq h1.1.symm) hc
        rcases lt_or_eq_of_le hzle with hlt | heq
        · exact Or.inl hlt
        · exact Or.inr ⟨heq.symm, hx z (by simp [hzys])⟩
    · rw [if_neg hc]
      refine List.Pairwise.cons ?_
        (ih (List.pairwise_cons.mp hp).2
          (fun y2 hy2 => hx y2 (by simp [hy2])))
      intro z hz
      have hz2 : z = x ∨ z ∈ ys := by
        have := (insertDesc_perm x ys).mem_iff.mp hz
        simpa using this
      rcases hz2 with rfl | hzys
      · exact Or.inl (not_le.mp hc)
      · exact (List.pairwise_cons.mp hp).1 z hzys

/-- Sorting a list whose generations strictly increase yields the ranking
    order: descending score, ties by increasing generation. -/
lemma sortDesc_pairwise :
    ∀ {l : List Server.Trial},
      l.Pairwise (fun a b => a.generation < b.generation) →
      (Server.sortDesc l).Pairwise rankedBefore := by
  intro l
  induction l with
  | nil => intro _; simp [Server.sortDesc]
  | cons a l ih =>
    intro hp
    have hrw : Server.sortDesc (a :: l) =
        Server.insertDesc a (Server.sortDesc l) := rfl
    rw [hrw]
    refine insertDesc_pairwise (ih (List.pairwise_cons.mp hp).2) ?_
    intro y hy
    exact (List.pairwise_cons.mp hp).1 y ((sortDesc_perm l).mem_iff.mp hy)

/-- The retained trials of the generation loop carry strictly increasing
    generation indices. -/
lemma mapM_gen_pairwise {f : Nat → Except String (Option Server.Trial)}
    (hf : ∀ g t, f g = .ok (some t) → t.generation = g + 1) :
    ∀ {l : List Nat} {opts : List (Option Server.Trial)},
      l.Pairwise (· < ·) → l.mapM f = .ok opts →
      opts.reduceOption.Pairwise (fun a b => a.generation < b.generation) := by
  intro l
  induction l with
  | nil =>
    intro opts _ h
    simp only [List.mapM_nil, pure, Except.pure, Except.ok.injEq] at h
    subst h
    simp [List.reduceOption]
  | cons g rest ih =>
    intro opts hp h
    rw [List.mapM_cons] at h
    cases hg : f g with
    | error e => rw [hg] at h; simp [bind, Except.bind] at h
    | ok o =>
      rw [hg] at h
      simp only [bind, Except.bind] at h
      cases hrest : rest.mapM f with
      | error e => rw [hrest] at h; simp [bind, Except.bind] at h
      | ok os =>
        rw [hrest] at h
        simp only [bind, Except.bind, pure, Except.pure, Except.ok.injEq] at h
        subst h
        cases o with
        | none =>
          rw [List.reduceOption_cons_of_none]
          exact ih (List.pairwise_cons.mp hp).2 hrest
        | some t =>
          rw [List.reduceOption_cons_of_some]
          refine List.Pairwise.cons ?_ (ih (List.pairwise_cons.mp hp).2 hrest)
          intro t2 ht2
          rcases mapM_mem_reduceOption hrest t2 ht2 with ⟨g2, hg2mem, hg2⟩
          have h1 : t.generation = g + 1 := hf g t hg
          have h2 : t2.generation = g2 + 1 := hf g2 t2 hg2
          have h3 : g < g2 := (List.pairwise_cons.mp hp).1 g2 hg2mem
          omega

/-- C5: the optimization engine returns exactly the first 10 entries of the
    stable descending sort of the retained trials; that sorted list is a
    permutation of the retained trials ordered so that higher scores come
    first and equal scores keep increasing generation order; when fewer than
    10 survive, all are returned. -/
theorem topStrandSets_sortedTop10 (draw : Nat → String → Option DNA)
    (p3 : Server.Primer3) (st : Server.Settings)
    (cache : String → Option ℤ) (targets : List Server.TargetStrand)
    (n : Nat) (out : Server.EngineOut)
    (hrun : Server.generateOptimizedStrandSets draw p3 st cache targets n =
      .ok out) :
    out.topSets = (Server.sortDesc out.validSets).take 10 ∧
    (Server.sortDesc out.validSets).Pairwise rankedBefore ∧
    (Server.sortDesc out.validSets).Perm out.validSets ∧
    out.topSets.length = min 10 out.validSets.length := by
  rcases engine_ok hrun with ⟨opts, hopts, hvalid, htop, _⟩
  have hgen : opts.reduceOption.Pairwise
      (fun a b => a.generation < b.generation) :=
    mapM_gen_pairwise (fun g t hg => (trialFor_ok_props hg).1)
      (List.pairwise_lt_range n) hopts
  refine ⟨by rw [htop, hvalid], ?_, ?_, ?_⟩
  · rw [hvalid]; exact sortDesc_pairwise hgen
  · rw [hvalid]; exact sortDesc_perm _
  · rw [htop, hvalid, List.length_take,
      (sortDesc_perm opts.reduceOption).length_eq]

/-- Witness for C5: the theorem applied to the concrete demo run. -/
theorem topStrandSets_sortedTop10_witness :
    (demoRun.toOption.map (fun out =>
      decide (out.topSets.length = min 10 out.validSets.length))) =
      some true := by
  cases hrun : demoRun with
  | error e =>
    have hsome : demoRun.toOption.isSome = true := by decide
    rw [hrun] at hsome
    simp [Except.toOption] at hsome
  | ok out =>
    simp only [Except.toOption, Option.map_some', Option.some.injEq,
      decide_eq_true_eq]
    exact (topStrandSets_sortedTop10 demoDraw demoP3 demoSettings demoCache
      demoTargets 1 out hrun).2.2.2

/-- Rounding a nonnegative value stays nonnegative. -/
lemma pyRound_nonneg {q : ℚ} (h : 0 ≤ q) : 0 ≤ pyRound q := by
  unfold pyRound
  dsimp only
  have hf : (0:ℤ) ≤ ⌊q⌋ := Int.floor_nonneg.mpr h
  split_ifs <;> omega

/-- Rounding never crosses an integer upper bound. -/
lemma pyRound_le_of_le {q : ℚ} {n : ℤ} (h : q ≤ n) : pyRound q ≤ n := by
  unfold pyRound
  dsimp only
  have hf : ⌊q⌋ ≤ n := by
    have := Int.floor_le_floor h
    simpa using this
  have hfq : (⌊q⌋ : ℚ) ≤ q := Int.floor_le q
  split_ifs with h1 h2 h3
  · exact hf
  · have hlt : (⌊q⌋ : ℚ) + 1/2 < (n : ℚ) := by
      have : (⌊q⌋ : ℚ) + 1/2 < q := by linarith [h2]
      linarith [h]
    have : ⌊q⌋ < n := by exact_mod_cast lt_of_lt_of_le (by linarith : (⌊q⌋:ℚ) < n) le_rfl
    omega
  · exact hf
  · have hr : q - ⌊q⌋ = 1/2 := le_antisymm (not_lt.mp h2) (not_lt.mp h1)
    have hlt : (⌊q⌋ : ℚ) < (n : ℚ) := by linarith [h]
    have : ⌊q⌋ < n := by exact_mod_cast hlt
    omega

/-- Rounding moves a value by at most one half. -/
lemma abs_pyRound_sub (q : ℚ) : |(pyRound q : ℚ) - q| ≤ 1/2 := by
  unfold pyRound
  dsimp only
  have h0 : (⌊q⌋ : ℚ) ≤ q := Int.floor_le q
  have h1 : q - ⌊q⌋ < 1 := by
    have := Int.lt_floor_add_one q
    linarith
  split_ifs with ha hb hc <;> rw [abs_le] <;> constructor <;> push_cast <;>
    linarith

lemma round2_nonneg {q : ℚ} (h : 0 ≤ q) : 0 ≤ round2 q := by
  unfold round2
  have : (0:ℤ) ≤ pyRound (100 * q) := pyRound_nonneg (by linarith)
  have h2 : (0:ℚ) ≤ (pyRound (100 * q) : ℚ) := by exact_mod_cast this
  linarith

lemma round2_le_100 {q : ℚ} (h : q ≤ 100) : round2 q ≤ 100 := by
  unfold round2
  have : pyRound (100 * q) ≤ (10000 : ℤ) := pyRound_le_of_le (by push_cast; linarith)
  have h2 : (pyRound (100 * q) : ℚ) ≤ 10000 := by exact_mod_cast this
  linarith

lemma abs_round2_sub (q : ℚ) : |round2 q - q| ≤ 1/200 := by
  unfold round2
  have h := abs_pyRound_sub (100 * q)
  rw [abs_le] at h ⊢
  constructor <;> [linarith [h.1]; linarith [h.2]]

lemma round2_zero : round2 0 = 0 := by
  unfold round2 pyRound
  norm_num

/-- A fold that only ever adds nonnegative amounts keeps its floor. -/
lemma foldl_mono_init {α : Type} (f : ℚ → α → ℚ) (hf : ∀ a x, a ≤ f a x) :
    ∀ (l : List α) (init : ℚ), init ≤ l.foldl f init := by
  intro l
  induction l with
  | nil => intro init; simp
  | cons x xs ih => intro init; exact le_trans (hf init x) (ih (f init x))

lemma thermoPenalty_nonneg (st : Server.Settings)
    (strands : List Server.StrandRec) : 0 ≤ Server.thermoPenalty st strands := by
  unfold Server.thermoPenalty
  refine foldl_mono_init _ ?_ strands 0
  intro a s
  dsimp only
  have h1 := abs_nonneg (s.validation.hairpinValue - st.hairpinDg)
  have h2 := abs_nonneg (s.validation.selfDimerValue - st.selfDimerDg)
  have h3 := abs_nonneg
    (s.validation.threePrimeHairpinValue - st.threePrimeHairpinDg)
  split_ifs <;> linarith

lemma imbalancePenalty_nonneg (strands : List Server.StrandRec) :
    0 ≤ Server.imbalancePenalty strands := by
  unfold Server.imbalancePenalty
  refine foldl_mono_init _ ?_ strands 0
  intro a s
  dsimp only
  have h2 := abs_nonneg (s.validation.threePrimeSelfDimerValue - (-6))
  split_ifs with hgt hlt <;> linarith

lemma crossPenalty_nonneg (st : Server.Settings)
    (records : List Server.CrossRec) : 0 ≤ Server.crossPenalty st records := by
  unfold Server.crossPenalty
  refine foldl_mono_init _ ?_ records 0
  intro a r
  dsimp only
  have h1 := abs_nonneg (r.dg - st.crossDimerDg)
  have h2 := abs_nonneg (r.dg - (st.crossDimerDg + 2))
  split_ifs <;> linarith

/-- Arithmetic core of the scorer contract: the rounded floored score lies
    in [0, 100], and whenever it is positive the three rounded subtotals sum
    to 100 minus the score up to the accumulated rounding slack 1/50. -/
lemma score_bounds {pT pI pC : ℚ} (hT : 0 ≤ pT) (hI : 0 ≤ pI) (hC : 0 ≤ pC) :
    0 ≤ round2 (max 0 (100 - (pT + pI + pC))) ∧
    round2 (max 0 (100 - (pT + pI + pC))) ≤ 100 ∧
    (0 < round2 (max 0 (100 - (pT + pI + pC))) →
      |(round2 pT + round2 pI + round2 pC) -
        (100 - round2 (max 0 (100 - (pT + pI + pC))))| ≤ 1/50) := by
  have hm0 : 0 ≤ max 0 (100 - (pT + pI + pC)) := le_max_left _ _
  have hm100 : max 0 (100 - (pT + pI + pC)) ≤ 100 :=
    max_le (by norm_num) (by linarith)
  refine ⟨round2_nonneg hm0, round2_le_100 hm100, ?_⟩
  intro hpos
  have hmne : max 0 (100 - (pT + pI + pC)) ≠ 0 := by
    intro h0
    rw [h0, round2_zero] at hpos
    exact lt_irrefl 0 hpos
  have hmax : max 0 (100 - (pT + pI + pC)) = 100 - (pT + pI + pC) := by
    rcases le_or_lt (100 - (pT + pI + pC)) 0 with hle | hlt
    · exact absurd (max_eq_left hle) hmne
    · exact max_eq_right (le_of_lt hlt)
  rw [hmax]
  have e1 := abs_round2_sub pT
  have e2 := abs_round2_sub pI
  have e3 := abs_round2_sub pC
  have e4 := abs_round2_sub (100 - (pT + pI + pC))
  rw [abs_le] at e1 e2 e3 e4 ⊢
  constructor <;> [linarith [e1.1, e2.1, e3.1, e4.1, e1.2, e2.2, e3.2, e4.2];
    linarith [e1.1, e2.1, e3.1, e4.1, e1.2, e2.2, e3.2, e4.2]]

/-- The scorer contract on the record built by calculate_strand_set_score. -/
lemma calculateStrandSetScore_props (strands : List Server.StrandRec)
    (records : List Server.CrossRec) (st : Server.Settings) :
    0 ≤ (Server.calculateStrandSetScore strands records st).total ∧
    (Server.calculateStrandSetScore strands records st).total ≤ 100 ∧
    (0 < (Server.calculateStrandSetScore strands records st).total →
      |((Server.calculateStrandSetScore strands records st).penThermo +
        (Server.calculateStrandSetScore strands records st).penImbalance +
        (Server.calculateStrandSetScore strands records st).penCross) -
        (100 - (Server.calculateStrandSetScore strands records st).total)| ≤
        1/50) := by
  unfold Server.calculateStrandSetScore
  dsimp only
  exact score_bounds (thermoPenalty_nonneg st strands)
    (imbalancePenalty_nonneg strands) (crossPenalty_nonneg st records)

/-- C4 (amended): every trial returned in top_strand_sets has
    score.total in [0, 100]; whenever score.total is positive the three
    per-category rounded subtotals sum to 100 - score.total up to the
    rounding slack 1/50.  (When the raw penalty exceeds 100 the score is
    floored at 0 while the breakdown keeps the full penalty, so the sum can
    exceed 100 - score.total; see the counterexample.) -/
theorem topStrandSets_scoreBounds (draw : Nat → String → Option DNA)
    (p3 : Server.Primer3) (st : Server.Settings)
    (cache : String → Option ℤ) (targets : List Server.TargetStrand)
    (n : Nat) (out : Server.EngineOut) (t : Server.Trial)
    (hrun : Server.generateOptimizedStrandSets draw p3 st cache targets n =
      .ok out)
    (hmem : t ∈ out.topSets) :
    0 ≤ t.score.total ∧ t.score.total ≤ 100 ∧
    (0 < t.score.total →
      |(t.score.penThermo + t.score.penImbalance + t.score.penCross) -
        (100 - t.score.total)| ≤ 1/50) := by
  rcases engine_ok hrun with ⟨opts, hopts, _, htop, _⟩
  rw [htop] at hmem
  have hmem3 : t ∈ opts.reduceOption :=
    (sortDesc_perm opts.reduceOption).mem_iff.mp (List.mem_of_mem_take hmem)
  rcases mapM_mem_reduceOption hopts t hmem3 with ⟨g, _, hg⟩
  rcases trialFor_ok_props hg with ⟨_, _, _, hscore⟩
  rw [hscore]
  exact calculateStrandSetScore_props _ _ st

/-- Counterexample for C4 as stated: a returned trial (nine valid strands
    whose 3-prime self-dimer values are all 0) has score.total = 0 while its
    per-category subtotals sum to 108, far outside rounding distance of
    100 - 0. -/
theorem scoreBreakdown_counterexample :
    (demo9Run.toOption.map (fun out => out.topSets.map
      (fun t => (t.score.total,
        t.score.penThermo + t.score.penImbalance + t.score.penCross)))) =
      some [(0, 108)] ∧
    ¬ (|(108 : ℚ) - (100 - 0)| ≤ 1/50) := by
  refine ⟨by decide, ?_⟩
  rw [abs_le]
  intro h
  linarith [h.2]

/-- Witness for C4 (amended): the demo run returns one trial with a
    positive score, and the theorem bounds hold for it. -/
theorem topStrandSets_scoreBounds_witness :
    (demoRun.toOption.map (fun out => out.topSets.all
      (fun t => decide (0 ≤ t.score.total) && decide (t.score.total ≤ 100)))) =
      some true := by
  cases hrun : demoRun with
  | error e =>
    have hsome : demoRun.toOption.isSome = true := by decide
    rw [hrun] at hsome
    simp [Except.toOption] at hsome
  | ok out =>
    simp only [Except.toOption, Option.map_some', Option.some.injEq]
    rw [List.all_eq_true]
    intro t ht
    have hb := topStrandSets_scoreBounds demoDraw demoP3 demoSettings demoCache
      demoTargets 1 out t hrun ht
    rw [Bool.and_eq_true]
    exact ⟨decide_eq_true hb.1, decide_eq_true hb.2.1⟩

/-- Appending the marker adds a star at the end of the name. -/
lemma data_append_star (b : String) : (b ++ "*").data = b.data ++ ['*'] := by
  rw [String.data_append]

lemma getLast_append_star (b : String) :
    (b ++ "*").data.getLast? = some '*' := by
  rw [data_append_star, List.getLast?_concat]

/-- A name that does not end in a star is never a marker name. -/
lemma ne_append_star {a b : String} (ha : a.data.getLast? ≠ some '*') :
    a ≠ b ++ "*" := by
  intro h
  exact ha (by rw [h, getLast_append_star])

/-- Marker names built from distinct bases are distinct. -/
lemma append_star_inj {a b : String} (h : a ++ "*" = b ++ "*") : a = b := by
  have h2 := congrArg String.data h
  rw [data_append_star, data_append_star] at h2
  exact String.ext (List.append_cancel_right h2)

lemma head?_dropWhile_false {p : Char → Bool} :
    ∀ (l : List Char) {a : Char}, (l.dropWhile p).head? = some a →
      p a = false := by
  intro l
  induction l with
  | nil => intro a h; simp [List.dropWhile] at h
  | cons x xs ih =>
    intro a h
    rw [List.dropWhile_cons] at h
    by_cases hp : p x = true
    · rw [if_pos hp] at h
      exact ih h
    · rw [if_neg hp] at h
      simp only [List.head?_cons, Option.some.injEq] at h
      subst h
      exact Bool.eq_false_iff.mpr hp

/-- Base names produced by rstrip never end in a star. -/
lemma rstripStar_no_trailing (x : String) :
    (Server.rstripStar x).data.getLast? ≠ some '*' := by
  unfold Server.rstripStar
  rw [List.getLast?_reverse]
  intro hcontra
  have := head?_dropWhile_false _ hcontra
  simp at this

lemma requiredDomains_nodup (targets : List Server.TargetStrand) :
    (Server.requiredDomains targets).Nodup := List.nodup_dedup _

lemma requiredDomains_noStar (targets : List Server.TargetStrand) :
    ∀ b ∈ Server.requiredDomains targets, b.data.getLast? ≠ some '*' := by
  intro b hb
  have hb2 := List.mem_dedup.mp hb
  rcases List.mem_map.mp hb2 with ⟨x, _, rfl⟩
  exact rstripStar_no_trailing x

lemma lookupAsg_cons_self (k : String) (v : DNA)
    (rest : List (String × DNA)) :
    Server.lookupAsg ((k, v) :: rest) k = some v := by
  unfold Server.lookupAsg
  rw [List.find?_cons_of_pos _ (by simp)]
  rfl

lemma lookupAsg_cons_ne {k1 k : String} (v1 : DNA)
    (rest : List (String × DNA)) (h : k1 ≠ k) :
    Server.lookupAsg ((k1, v1) :: rest) k = Server.lookupAsg rest k := by
  unfold Server.lookupAsg
  rw [List.find?_cons_of_neg _ (by simp [h])]

/-- Core fact behind C2 for the optimization engine: whenever the
    per-generation assignment loop completes, every base name of the
    required list is bound to its drawn sequence and the matching marker
    name is bound to exactly the reverse complement of that same draw -
    marker domains are never drawn separately. -/
lemma buildAssignments_lookup {draw : Nat → String → Option DNA}
    {cache : String → Option ℤ} {g : Nat} :
    ∀ {req : List String} {asg : List (String × DNA)}, req.Nodup →
      (∀ b ∈ req, b.data.getLast? ≠ some '*') →
      Server.buildAssignments draw cache g req = .ok (some asg) →
      ∀ b ∈ req, ∃ s rc, Server.lookupAsg asg b = some s ∧
        reverseComplement s = some rc ∧
        Server.lookupAsg asg (b ++ "*") = some rc := by
  intro req
  induction req with
  | nil => intro asg _ _ _ b hb; simp at hb
  | cons base rest ih =>
    intro asg hnodup hnostar h b hb
    simp only [Server.buildAssignments] at h
    cases hc : cache base with
    | none => rw [hc] at h; simp at h
    | some len =>
      rw [hc] at h
      dsimp only at h
      cases hd : draw g base with
      | none => rw [hd] at h; simp at h
      | some s =>
        rw [hd] at h
        dsimp only at h
        by_cases hse : s.isEmpty = true
        · rw [if_pos hse] at h; simp at h
        · rw [if_neg hse] at h
          cases hrc : reverseComplement s with
          | none => rw [hrc] at h; simp at h
          | some rc =>
            rw [hrc] at h
            cases hrest : Server.buildAssignments draw cache g rest with
            | error e => rw [hrest] at h; simp [Except.map] at h
            | ok restOpt =>
              rw [hrest] at h
              simp only [Except.map, Except.ok.injEq] at h
              cases restOpt with
              | none => simp at h
              | some asgRest =>
                simp only [Option.map_some', Option.some.injEq] at h
                subst h
                have hbasestar : base ≠ base ++ "*" :=
                  ne_append_star (hnostar base (by simp))
                rcases List.mem_cons.mp hb with rfl | hbrest
                · exact ⟨s, rc, by rw [lookupAsg_cons_self],
                    hrc, by rw [lookupAsg_cons_ne _ _ hbasestar,
                      lookupAsg_cons_self]⟩
                · have hbnostar : b.data.getLast? ≠ some '*' :=
                    hnostar b (by simp [hbrest])
                  have hbne : base ≠ b := by
                    intro heq
                    subst heq
                    exact (List.nodup_cons.mp hnodup).1 hbrest
                  have hstar_ne : base ++ "*" ≠ b :=
                    fun heq => (ne_append_star hbnostar) heq.symm
                  have hbase_bstar : base ≠ b ++ "*" :=
                    ne_append_star (hnostar base (by simp))
                  have hstar_bstar : base ++ "*" ≠ b ++ "*" :=
                    fun heq => hbne (append_star_inj heq)
                  rcases ih (List.nodup_cons.mp hnodup).2
                      (fun x hx => hnostar x (by simp [hx])) hrest b hbrest
                    with ⟨s2, rc2, hl1, hl2, hl3⟩
                  exact ⟨s2, rc2,
                    by rw [lookupAsg_cons_ne _ _ hbne,
                      lookupAsg_cons_ne _ _ hstar_ne]; exact hl1,
                    hl2,
                    by rw [lookupAsg_cons_ne _ _ hbase_bstar,
                      lookupAsg_cons_ne _ _ hstar_bstar]; exact hl3⟩

/-- C2 (amended, optimization engine): in every generation whose assignment
    loop completes, each reverse-complement-marked domain name resolves to
    exactly the reverse Watson-Crick complement of its paired base draw.
    (design_strand, by contrast, does not interpret the marker; see the
    counterexample theorem.) -/
theorem assignments_reverseComplement (draw : Nat → String → Option DNA)
    (cache : String → Option ℤ) (g : Nat)
    (targets : List Server.TargetStrand) (asg : List (String × DNA))
    (h : Server.buildAssignments draw cache g (Server.requiredDomains targets)
      = .ok (some asg)) :
    ∀ b ∈ Server.requiredDomains targets,
      ∃ s rc, Server.lookupAsg asg b = some s ∧
        reverseComplement s = some rc ∧
        Server.lookupAsg asg (b ++ "*") = some rc :=
  buildAssignments_lookup (requiredDomains_nodup targets)
    (requiredDomains_noStar targets) h

/-- Witness for the amended C2: the concrete demo assignment binds x* to
    the reverse complement TTTTTTTTTT of the draw for x. -/
theorem assignments_reverseComplement_witness :
    ∃ s rc,
      Server.lookupAsg [("x", seqChars "AAAAAAAAAA"),
        ("x" ++ "*", seqChars "TTTTTTTTTT")] "x" = some s ∧
      reverseComplement s = some rc ∧
      Server.lookupAsg [("x", seqChars "AAAAAAAAAA"),
        ("x" ++ "*", seqChars "TTTTTTTTTT")] ("x" ++ "*") = some rc := by
  have happ := assignments_reverseComplement demoDraw demoCache 0 demoTargets
    [("x", seqChars "AAAAAAAAAA"), ("x" ++ "*", seqChars "TTTTTTTTTT")]
    (by rfl) "x" (by decide)
  exact happ

/-- C7 (amended): both melting-temperature calculators add a terminal
    adjustment at each end on top of the shared nearest-neighbor sum.  The
    webapp calculator uses the distinct nonzero constants (2.3, 4.1) for
    A/T ends and (0.1, -2.8) for G/C ends; the backend calculator uses
    (2.3, 4.1) for A/T ends and adds nothing - the zero pair - for G/C
    ends. -/
theorem meltingTemp_terminalCorrections (s : DNA) :
    Webapp.meltDHDS s =
      ((nnSum s).1 + (terminalCorrectionWebapp (s.headD ' ')).1 +
          (terminalCorrectionWebapp (s.getLastD ' ')).1,
        (nnSum s).2 + (terminalCorrectionWebapp (s.headD ' ')).2 +
          (terminalCorrectionWebapp (s.getLastD ' ')).2) ∧
    Core.meltDHDS s =
      ((nnSum s).1 + (terminalCorrectionCore (s.headD ' ')).1 +
          (terminalCorrectionCore (s.getLastD ' ')).1,
        (nnSum s).2 + (terminalCorrectionCore (s.headD ' ')).2 +
          (terminalCorrectionCore (s.getLastD ' ')).2) ∧
    terminalCorrectionWebapp 'A' = terminalCorrectionWebapp 'T' ∧
    terminalCorrectionWebapp 'G' = terminalCorrectionWebapp 'C' ∧
    terminalCorrectionWebapp 'A' ≠ terminalCorrectionWebapp 'G' ∧
    terminalCorrectionWebapp 'G' ≠ (0, 0) ∧
    terminalCorrectionCore 'G' = (0, 0) := by
  refine ⟨?_, ?_, by decide, by decide, by decide, by decide, by decide⟩
  · unfold Webapp.meltDHDS terminalCorrectionWebapp
    dsimp only
    split_ifs <;> apply Prod.ext <;> dsimp only <;> ring
  · unfold Core.meltDHDS terminalCorrectionCore
    dsimp only
    split_ifs <;> apply Prod.ext <;> dsimp only <;> ring

/-- Counterexample for C7 as stated: at the G/C-ended input GG the backend
    calculator leaves the nearest-neighbor sum unchanged - no terminal
    constant is applied at either end - while the webapp calculator, whose
    distinct G/C constant the claim describes, does change it. -/
theorem terminalCorrection_counterexample :
    Core.meltDHDS (seqChars "GG") = nnSum (seqChars "GG") ∧
    Webapp.meltDHDS (seqChars "GG") ≠ nnSum (seqChars "GG") := by
  constructor <;> decide

/-- Counterexample for C9: at default global parameters the 45-percent-GC
    sequence has a strictly higher nearest-neighbor melting temperature than
    the same-length 50-percent-GC sequence (about 54.6 C versus 51.4 C; the
    3 C margin swamps the 0.0001 slack of the logarithm stand-in), so Tm is
    not non-decreasing in GC content at fixed length. -/
theorem meltingTemp_gc_counterexample :
    Core.calculateGcContent seqLowGc < Core.calculateGcContent seqHighGc ∧
    Core.calculateMeltingTemp lnDemo {} seqHighGc <
      Core.calculateMeltingTemp lnDemo {} seqLowGc := by
  constructor <;> decide

/-- Over the ATGC alphabet the four base counts partition the length. -/
lemma count_atgc_partition :
    ∀ (s : DNA), (∀ c ∈ s, c = 'A' ∨ c = 'T' ∨ c = 'G' ∨ c = 'C') →
      s.count 'A' + s.count 'T' + s.count 'G' + s.count 'C' = s.length := by
  intro s
  induction s with
  | nil => intro _; rfl
  | cons c cs ih =>
    intro h
    have hc := h c (by simp)
    have hrest := ih (fun x hx => h x (by simp [hx]))
    rcases hc with rfl | rfl | rfl | rfl <;>
      simp only [List.count_cons, List.length_cons] <;>
      simp <;> omega

/-- C9 (amended): the base-count melting-temperature formula
    OligoDesigner.melting_temp used by the optimization server IS
    non-decreasing in GC content at fixed length over the ATGC alphabet
    (unlike the nearest-neighbor calculator, refuted by the
    counterexample). -/
theorem meltingTempSimple_gc_monotone (s1 s2 : DNA)
    (hlen : s1.length = s2.length)
    (h1 : ∀ c ∈ s1, c = 'A' ∨ c = 'T' ∨ c = 'G' ∨ c = 'C')
    (h2 : ∀ c ∈ s2, c = 'A' ∨ c = 'T' ∨ c = 'G' ∨ c = 'C')
    (hgc : Server.gcContent s1 ≤ Server.gcContent s2) :
    Server.meltingTemp s1 ≤ Server.meltingTemp s2 := by
  rcases Nat.eq_zero_or_pos s1.length with h0 | hpos
  · have e1 : s1 = [] := List.length_eq_zero.mp h0
    have e2 : s2 = [] := List.length_eq_zero.mp (by omega : s2.length = 0)
    subst e1; subst e2
    exact le_refl _
  · have hne1 : s1 ≠ [] := List.length_pos.mp hpos
    have hne2 : s2 ≠ [] := List.length_pos.mp (by omega : 0 < s2.length)
    have hnq : ((s1.length : ℚ)) ≠ 0 := by
      exact_mod_cast Nat.pos_iff_ne_zero.mp hpos
    have hgcCount : ((gcCount s1 : ℚ)) ≤ (gcCount s2 : ℚ) := by
      unfold Server.gcContent gcPercent at hgc
      rw [if_neg hne1, if_neg hne2, ← hlen] at hgc
      have h100 : (0:ℚ) < 100 := by norm_num
      have hposq : (0:ℚ) < (s1.length : ℚ) := by
        exact_mod_cast hpos
      rw [div_mul_eq_mul_div, div_mul_eq_mul_div,
        div_le_div_iff₀ hposq hposq] at hgc
      nlinarith [hgc]
    unfold Server.meltingTemp
    rw [← hlen]
    by_cases hb : s1.length < 14
    · rw [if_pos hb, if_pos hb]
      have p1 := count_atgc_partition s1 h1
      have p2 := count_atgc_partition s2 h2
      have p1q : (s1.count 'A' : ℚ) + (s1.count 'T' : ℚ) +
          (s1.count 'G' : ℚ) + (s1.count 'C' : ℚ) = (s1.length : ℚ) := by
        exact_mod_cast p1
      have p2q : (s2.count 'A' : ℚ) + (s2.count 'T' : ℚ) +
          (s2.count 'G' : ℚ) + (s2.count 'C' : ℚ) = (s1.length : ℚ) := by
        rw [hlen]
        exact_mod_cast p2
      have hgq : (s1.count 'G' : ℚ) + (s1.count 'C' : ℚ) ≤
          (s2.count 'G' : ℚ) + (s2.count 'C' : ℚ) := by
        unfold gcCount at hgcCount
        push_cast at hgcCount
        linarith
      linarith
    · rw [if_neg hb, if_neg hb]
      linarith [hgc]

/-- Witness for the amended C9 at concrete inputs. -/
theorem meltingTempSimple_gc_monotone_witness :
    Server.gcContent (seqChars "AATT") ≤ Server.gcContent (seqChars "GGCC") ∧
    Server.meltingTemp (seqChars "AATT") ≤ Server.meltingTemp (seqChars "GGCC") :=
  ⟨by decide,
   meltingTempSimple_gc_monotone (seqChars "AATT") (seqChars "GGCC")
     (by decide) (by decide) (by decide) (by decide)⟩

/-- Counterexample for C1 as stated: design_strand accepts a fixed_sequence
    whose length differs from the declared domain length and succeeds; the
    strand AT has length 2 while the declared lengths sum to 10. -/
theorem designStrand_fixedLength_counterexample :
    (Webapp.designStrand (fun _ => 0) unusedRepo "S"
        [{ name := some "A", length := some 10,
           fixedSequence := some "AT" }] [] {}).success = true ∧
    ((Webapp.designStrand (fun _ => 0) unusedRepo "S"
        [{ name := some "A", length := some 10,
           fixedSequence := some "AT" }] [] {}).strand.map
      (fun st => ((st.sequence.length : ℤ),
        (st.domains.map (fun d => d.length)).sum))) = some (2, 10) ∧
    (2 : ℤ) ≠ 10 := by
  refine ⟨by decide, by decide, by decide⟩

/-- Counterexample for C2 as stated: design_strand does not interpret the
    reverse-complement marker.  With domain x fixed to AAAACCCCGG and
    domain x* left to resolve, x* is drawn from the repository pool
    (ATCGATCGAT at choice 0, and no pool entry equals the reverse
    complement), not derived as the reverse complement CCGGGGTTTT of x. -/
theorem designStrand_marker_counterexample :
    ((Webapp.designStrand (fun _ => 0) markerRepo "S"
        [{ name := some "x", length := some 10,
           fixedSequence := some "AAAACCCCGG" },
         { name := some "x*", length := some 10 }] [] {}).strand.bind
      (fun st => (st.domains[1]?).bind (fun d => d.generatedSequence))) =
      some (seqChars "ATCGATCGAT") ∧
    reverseComplement (seqChars "AAAACCCCGG") = some (seqChars "CCGGGGTTTT") ∧
    seqChars "ATCGATCGAT" ≠ seqChars "CCGGGGTTTT" := by
  refine ⟨by decide, by decide, by decide⟩

/-- Every modelled exception renders to a non-empty message. -/
lemma PyErr.message_ne (e : Webapp.PyErr) : e.message ≠ "" := by
  cases e with
  | unexpectedParam k =>
    intro h
    have h2 := congrArg String.data h
    rw [Webapp.PyErr.message, String.data_append] at h2
    simp at h2
  | keyErrorName => decide
  | keyErrorLength => decide
  | zeroDivision => decide

/-- C8: design_strand never lets an exception escape - every run of the
    embedded try body either succeeds, yielding a DesignResult with a
    strand and a validation, or is caught, yielding success = False with no
    partial strand, no validation, and a non-empty error message. -/
theorem designStrand_no_exception (ln : ℚ → ℚ)
    (repo : ℤ → ℚ → List DNA → DNA) (strandName : String)
    (rawDomains : List Webapp.RawDomain) (rawParams : List (String × ℚ))
    (config : Webapp.Config) :
    ((Webapp.designStrand ln repo strandName rawDomains rawParams
        config).success = false →
      (Webapp.designStrand ln repo strandName rawDomains rawParams
        config).strand = none ∧
      (Webapp.designStrand ln repo strandName rawDomains rawParams
        config).validation = none ∧
      (Webapp.designStrand ln repo strandName rawDomains rawParams
        config).errorMessage ≠ "") ∧
    ((Webapp.designStrand ln repo strandName rawDomains rawParams
        config).success = true →
      ∃ st vr,
        (Webapp.designStrand ln repo strandName rawDomains rawParams
          config).strand = some st ∧
        (Webapp.designStrand ln repo strandName rawDomains rawParams
          config).validation = some vr) := by
  unfold Webapp.designStrand
  cases h : Webapp.designStrandCore ln repo strandName rawDomains rawParams
      config with
  | ok p =>
    cases p with
    | mk st vr =>
      refine ⟨fun hfalse => by simp at hfalse, fun _ => ⟨st, vr, rfl, rfl⟩⟩
  | error e =>
    exact ⟨fun _ => ⟨rfl, rfl, PyErr.message_ne e⟩, fun htrue => by simp at htrue⟩

/-- Witness for C8 at a concrete malformed input: a domain dict with no
    name key yields a caught failure with no strand and a message. -/
theorem designStrand_no_exception_witness :
    (Webapp.designStrand (fun _ => 0) unusedRepo "S" [{}] [] {}).success =
      false ∧
    (Webapp.designStrand (fun _ => 0) unusedRepo "S" [{}] [] {}).strand =
      none ∧
    (Webapp.designStrand (fun _ => 0) unusedRepo "S" [{}] [] {}).validation =
      none ∧
    (Webapp.designStrand (fun _ => 0) unusedRepo "S" [{}] [] {}).errorMessage ≠
      "" := by
  have h := (designStrand_no_exception (fun _ => 0) unusedRepo "S" [{}] []
    {}).1 (by decide)
  exact ⟨by decide, h.1, h.2.1, h.2.2⟩

/-- Inversion of a successful Except bind. -/
lemma except_bind_ok {α β γ : Type} {e : Except γ α} {f : α → Except γ β}
    {b : β} (h : (e >>= f) = .ok b) : ∃ a, e = .ok a ∧ f a = .ok b := by
  cases e with
  | error g => simp [bind, Except.bind] at h
  | ok a => exact ⟨a, rfl, by simpa [bind, Except.bind] using h⟩

/-- Every parsed domain comes from one raw dict of the request. -/
lemma mapM_parseDomain_mem :
    ∀ {raws : List Webapp.RawDomain} {doms : List Webapp.Domain},
      raws.mapM Webapp.parseDomain = .ok doms →
      ∀ d ∈ doms, ∃ rd ∈ raws, Webapp.parseDomain rd = .ok d := by
  intro raws
  induction raws with
  | nil =>
    intro doms h d hd
    simp only [List.mapM_nil, pure, Except.pure, Except.ok.injEq] at h
    subst h
    simp at hd
  | cons rd rest ih =>
    intro doms h d hd
    rw [List.mapM_cons] at h
    rcases except_bind_ok h with ⟨d0, hd0, h2⟩
    rcases except_bind_ok h2 with ⟨ds, hds, h3⟩
    simp only [pure, Except.pure, Except.ok.injEq] at h3
    subst h3
    rcases List.mem_cons.mp hd with rfl | hmem
    · exact ⟨rd, by simp, hd0⟩
    · rcases ih hds d hmem with ⟨rd2, hrd2, hp⟩
      exact ⟨rd2, by simp [hrd2], hp⟩

/-- A successfully parsed domain keeps the raw length and fixed sequence. -/
lemma parseDomain_ok {rd : Webapp.RawDomain} {d : Webapp.Domain}
    (h : Webapp.parseDomain rd = .ok d) :
    rd.length = some d.length ∧ rd.fixedSequence = d.fixedSequence := by
  unfold Webapp.parseDomain at h
  cases hn : rd.name with
  | none => rw [hn] at h; simp at h
  | some n =>
    rw [hn] at h
    cases hl : rd.length with
    | none => rw [hl] at h; simp at h
    | some l =>
      rw [hl] at h
      simp only [Except.ok.injEq] at h
      subst h
      exact ⟨rfl, rfl⟩

/-- When every fixed sequence has its declared length and the repository
    honours requested lengths, each resolved domain sequence has its
    domain's declared length. -/
lemma resolveDomains_lengths {repo : ℤ → ℚ → List DNA → DNA}
    (hrepo : ∀ (n : ℤ) (gc : ℚ) (ex : List DNA), 0 ≤ n →
      ((repo n gc ex).length : ℤ) = n) :
    ∀ (doms : List Webapp.Domain) (acc : List DNA),
      (∀ d ∈ doms, 0 ≤ d.length ∧
        ∀ fs, d.fixedSequence = some fs → ¬ fs.isEmpty = true →
          ((fs.length : ℤ) = d.length)) →
      ∀ o ∈ Webapp.resolveDomains repo doms acc,
        ((o.generatedSequence.getD []).length : ℤ) = o.length := by
  intro doms
  induction doms with
  | nil => intro acc _ o ho; simp [Webapp.resolveDomains] at ho
  | cons d rest ih =>
    intro acc hP o ho
    simp only [Webapp.resolveDomains] at ho
    rcases List.mem_cons.mp ho with rfl | hrest
    · dsimp only
      cases hd : d.fixedSequence with
      | none =>
        dsimp only
        exact hrepo _ _ _ (hP d (by simp)).1
      | some fs =>
        dsimp only
        by_cases hfe : fs.isEmpty = true
        · rw [if_pos hfe]
          exact hrepo _ _ _ (hP d (by simp)).1
        · rw [if_neg hfe]
          have hfl := (hP d (by simp)).2 fs hd hfe
          simpa using hfl
    · exact ih _ (fun x hx => hP x (by simp [hx])) o hrest

/-- Length of a concatenation, in the integers. -/
lemma length_flatten_int (L : List DNA) :
    ((L.flatten.length : ℤ)) = (L.map (fun s => (s.length : ℤ))).sum := by
  induction L with
  | nil => simp
  | cons s rest ih =>
    simp only [List.flatten_cons, List.length_append, List.map_cons,
      List.sum_cons, Nat.cast_add, ih]

/-- C1 (amended): for a successful design in which every supplied truthy
    fixed_sequence has its declared domain length and the repository
    honours requested lengths (both can fail in the source: a mismatched
    fixed_sequence is used verbatim, and the 25-pool of the repository
    returns 24-mers), the strand sequence length equals the sum of the
    declared domain lengths; total_length always equals the sequence
    length. -/
theorem designStrand_length (ln : ℚ → ℚ) (repo : ℤ → ℚ → List DNA → DNA)
    (strandName : String) (rawDomains : List Webapp.RawDomain)
    (rawParams : List (String × ℚ)) (config : Webapp.Config)
    (hrepo : ∀ (n : ℤ) (gc : ℚ) (ex : List DNA), 0 ≤ n →
      ((repo n gc ex).length : ℤ) = n)
    (hdoms : ∀ rd ∈ rawDomains, ∀ L, rd.length = some L → 0 ≤ L ∧
      ∀ fs, rd.fixedSequence = some fs → ¬ fs.isEmpty = true →
        ((fs.length : ℤ) = L)) :
    ∀ st, (Webapp.designStrand ln repo strandName rawDomains rawParams
        config).strand = some st →
      (st.sequence.length : ℤ) = (st.domains.map (fun d => d.length)).sum ∧
      st.totalLength = st.sequence.length := by
  intro st hst
  unfold Webapp.designStrand at hst
  cases hcore : Webapp.designStrandCore ln repo strandName rawDomains
      rawParams config with
  | error e => rw [hcore] at hst; simp at hst
  | ok p =>
    rw [hcore] at hst
    simp only [Option.some.injEq] at hst
    subst hst
    unfold Webapp.designStrandCore at hcore
    rcases except_bind_ok hcore with ⟨params, hpp, h2⟩
    rcases except_bind_ok h2 with ⟨doms, hdm, h3⟩
    dsimp only at h3
    rcases except_bind_ok h3 with ⟨vr, hvr, h4⟩
    simp only [pure, Except.pure, Except.ok.injEq] at h4
    subst h4
    dsimp only
    have hPdoms : ∀ d ∈ doms, 0 ≤ d.length ∧
        ∀ fs, d.fixedSequence = some fs → ¬ fs.isEmpty = true →
          ((fs.length : ℤ) = d.length) := by
      intro d hd
      rcases mapM_parseDomain_mem hdm d hd with ⟨rd, hrdmem, hrd⟩
      rcases parseDomain_ok hrd with ⟨hlen, hfix⟩
      have := hdoms rd hrdmem d.length hlen
      rw [hfix] at this
      exact this
    have hlens := resolveDomains_lengths hrepo doms [] hPdoms
    refine ⟨?_, rfl⟩
    rw [length_flatten_int, List.map_map, List.map_map]
    have hcongr :
        (Webapp.resolveDomains repo doms []).map
          ((fun s => (s.length : ℤ)) ∘ (fun d => d.generatedSequence.getD []))
          =
        (Webapp.resolveDomains repo doms []).map
          ((fun d => d.length) ∘ (fun d =>
            let domOk := (Webapp.validateDomain
              (d.generatedSequence.getD [])).all (fun c => c.2.passCheck)
            { d with validationPassed := domOk })) := by
      refine List.map_congr_left ?_
      intro o ho
      exact hlens o ho
    rw [hcongr]

/-- Witness for the amended C1 at a concrete input: a single 10-nt domain
    resolved through a length-honouring repository gives a 10-nt strand. -/
theorem designStrand_length_witness :
    (Webapp.designStrand (fun _ => 0) lengthRepo "S"
      [{ name := some "d", length := some 10 }] [] {}).strand.isSome = true ∧
    (Webapp.designStrand (fun _ => 0) lengthRepo "S"
      [{ name := some "d", length := some 10 }] [] {}).strand.all
      (fun st => decide ((st.sequence.length : ℤ) =
        (st.domains.map (fun d => d.length)).sum)) = true := by
  refine ⟨by decide, ?_⟩
  have hrepo : ∀ (n : ℤ) (gc : ℚ) (ex : List DNA), 0 ≤ n →
      ((lengthRepo n gc ex).length : ℤ) = n := by
    intro n gc ex hn
    simp [lengthRepo, Int.toNat_of_nonneg hn]
  have hdoms : ∀ rd ∈ [({ name := some "d", length := some 10 } :
      Webapp.RawDomain)], ∀ L, rd.length = some L → 0 ≤ L ∧
      ∀ fs, rd.fixedSequence = some fs → ¬ fs.isEmpty = true →
        ((fs.length : ℤ) = L) := by
    intro rd hrd L hL
    simp only [List.mem_singleton] at hrd
    subst hrd
    simp only [Option.some.injEq] at hL
    subst hL
    exact ⟨by norm_num, by intro fs hfs; simp at hfs⟩
  cases hst : (Webapp.designStrand (fun _ => 0) lengthRepo "S"
      [{ name := some "d", length := some 10 }] [] {}).strand with
  | none => rfl
  | some st =>
    simp only [Option.all_some]
    exact decide_eq_true (designStrand_length (fun _ => 0) lengthRepo "S"
      [{ name := some "d", length := some 10 }] [] {} hrepo hdoms st hst).1
